import Mathlib

/-!
Shallow embedding of the VFS core of the RTC-driver repository
(src/src/kernel/vfs.c): filesystem-type registry, superblock registry,
fixed-capacity dentry cache with LFU eviction, reference-counted vnode
cache, path resolution and the mount/unmount protocol.

Pointers are modelled as indices / numeric ids:
  - a dentry pointer is an index into the dentry slot table
    (the C array vfs_dentries[VFS_MAX_DENTRIES]);
  - a superblock pointer is a numeric arena id (sb_id), never reused;
  - a vnode is identified by its (superblock id, vnode number) key.
Backend callbacks (function pointers installed by filesystem drivers,
which are out of scope per the spec) are modelled as a pure oracle
structure `Backend`.  Fallible C functions returning NULL / -1 with a
`set_errno` code are modelled with the result type `Res`; a NULL-pointer
dereference (undefined behaviour) is modelled as `Res.crash`.
Allocation primitives (kalloc / list_add, whose sources are not part of
src/) can fail; each allocation site takes a Bool saying whether the
allocation succeeds, bundled in `AllocOk`.
-/

/-- Error codes set via set_errno in the C source (errors.h is not under
src/; the constructor names follow the codes used by vfs.c, with the C
code E_IO spelled E_Io here). -/
inductive Errno where
  | E_NOMEM
  | E_EXIST
  | E_Io
  | E_LIMIT
  | E_CORRUPT
  | E_NODIR
  | E_NOENT
  | E_ACCESS
  | E_NOTIMP
  | E_NOKOBJ
  | E_MOUNTED
  | E_NOROOT
  | E_NOTMOUNTED
  | E_BUSY
  | E_INVFS
deriving DecidableEq, Repr

/-- Result of a fallible C function: a value, a failure with an errno,
a NULL return with no errno set (vfs_lookup's final `return NULL`), or a
crash (NULL-pointer dereference / undefined behaviour). -/
inductive Res (α : Type) where
  | ok : α → Res α
  | err : Errno → Res α
  | nullRet : Res α
  | crash : Res α
deriving DecidableEq, Repr

/-- True exactly when the result is a success. -/
def Res.isOk {α : Type} : Res α → Bool
  | Res.ok _ => true
  | _ => false

/-- Superblock state flag.  Modelled from the spec: vfs.h is not under
src/; per spec section 3 a superblock's mutable flag is `unused` or
`mounted`, and the C macro VFS_SB_IS_MOUNTED tests it. -/
inductive SbFlag where
  | unused
  | mounted
deriving DecidableEq, Repr

/-- Fields a filesystem type's probe callback (ft_get_sb) fills into a
fresh superblock on success: backend-specific configuration. -/
structure SbCfg where
  root_vno : Nat
  blocksize : Nat
  blocks : Nat
  max_bytes : Nat
deriving DecidableEq, Repr

/-- A superblock record (vfs_sb_t).  sb_id is the arena identity that
stands for the C pointer; sb_fs_type holds the name of the owning
filesystem type (NULL modelled as none); sb_mnt is the mount-point
dentry back-reference (an index into the dentry table, NULL as none). -/
structure Sb where
  sb_devid : Nat
  sb_id : Nat
  sb_flags : SbFlag
  sb_blocksize : Nat
  sb_blocks : Nat
  sb_max_bytes : Nat
  sb_root_vno : Nat
  sb_fs_type : Option String
  sb_mnt : Option Nat
deriving DecidableEq, Repr

/-- A dentry slot (vfs_dentry_t).  d_name = none encodes a free slot
(the C code marks free slots by d_name == NULL); d_parent and the two
superblock back-references are pointers, modelled as indices / ids. -/
structure Dentry where
  d_name : Option String
  d_vno : Nat
  d_count : Nat
  d_parent : Option Nat
  d_sb : Option Nat
  d_mnt_sb : Option Nat
deriving DecidableEq, Repr

/-- A vnode record (vfs_vnode_t); only the fields the core itself reads
are modelled.  v_count is the reference counter (a C int, so modelled
as Int: vfs_vnode_release decrements before testing `< 1`). -/
structure Vnode where
  v_no : Nat
  v_mode : Nat
  v_count : Int
  v_sb : Nat
deriving DecidableEq, Repr

/-- Backend driver callbacks (the function pointers stored in
ft_ops / sb_ops / v_iops), modelled as pure oracles keyed by the
superblock id and vnode number they are invoked on. -/
structure Backend where
  read_vnode : Nat → Nat → Except Errno Nat
  destroy_vnode : Nat → Nat → Bool
  iops_lookup : Nat → Nat → String → Except Errno Nat
  sb_mount : Nat → Bool
  sb_unmount : Nat → Bool
  ft_get_sb : String → Nat → Except Errno SbCfg
  ft_has_kill : String → Bool
  ft_kill_sb : String → Nat → Bool

/-- Outcomes of the individual allocation sites (kalloc / list_add):
true means the allocation succeeds.  name: the strcpy'd dentry name;
path: the cloned path in vfs_lookup; prealloc: the vnode kalloc;
add: the vnode-cache list_add; sb: the superblock kalloc + list_add. -/
structure AllocOk where
  name : Bool
  path : Bool
  prealloc : Bool
  add : Bool
  sb : Bool
deriving DecidableEq, Repr

/-- The global mutable state of the VFS core: the filesystem-type
registry (names), the superblock registry, the dentry slot table, the
vnode cache, the root dentry pointer and the next fresh superblock id. -/
structure St where
  fts : List String
  sbs : List Sb
  dentries : List Dentry
  vnodes : List Vnode
  root : Option Nat
  nextSb : Nat
deriving DecidableEq, Repr

/-- VFS_MAX_DENTRIES: capacity of the dentry slot table. -/
def VFS_MAX_DENTRIES : Nat := 100

/-- VFS_DEFAULT_BLK_SIZE. -/
def VFS_DEFAULT_BLK_SIZE : Nat := 1024

/-- Modelled from the spec: the FILE_TYPE mode classifier macro and the
directory type constant come from the missing vfs.h header; the spec
only requires that a mode classifies as directory or not. -/
def FILE_TYPE (m : Nat) : Nat := m / 4096

/-- Modelled from the spec: the directory file-type constant from the
missing vfs.h header (a Unix-style mode 0x4000 is a directory). -/
def FILE_TYPE_DIRECTORY : Nat := 4

/-- Updates the element at position i of a list (no-op out of range). -/
def modifyAt {α : Type} : List α → Nat → (α → α) → List α
  | [], _, _ => []
  | a :: t, 0, f => f a :: t
  | a :: t, n + 1, f => a :: modifyAt t n f

/-- A dentry slot in the freshly memset state (vfs_dentry_reset). -/
def emptyDentry : Dentry :=
  { d_name := none, d_vno := 0, d_count := 0, d_parent := none,
    d_sb := none, d_mnt_sb := none }

/-- vfs_dentry_reset: frees the name and zeroes the slot. -/
def vfs_dentry_reset (_d : Dentry) : Dentry := emptyDentry

/-- The match test of the vfs_dentry_get scan: an occupied slot with the
same parent pointer and the same name. -/
def dentryMatches (d : Dentry) (parent : Option Nat) (name : String) : Bool :=
  decide (d.d_parent = parent) && decide (d.d_name = some name)

/-- First index (from base i) whose slot satisfies p. -/
def findIdxFrom (p : Dentry → Bool) : List Dentry → Nat → Option Nat
  | [], _ => none
  | d :: t, i => if p d then some i else findIdxFrom p t (i + 1)

/-- The cache-hit search of vfs_dentry_get: first slot matching
(parent, name). -/
def findMatch (tbl : List Dentry) (parent : Option Nat) (name : String) : Option Nat :=
  findIdxFrom (fun d => dentryMatches d parent name) tbl 0

/-- One step of the eviction-candidate tracking of the vfs_dentry_get
scan: a free slot becomes the candidate with counter 0; a mount point
is skipped; otherwise the slot replaces the candidate when its
frequency counter is strictly lower. -/
def victimStep (i : Nat) (d : Dentry) (acc : Option (Nat × Nat)) : Option (Nat × Nat) :=
  match d.d_name with
  | none => some (i, 0)
  | some _ =>
    match d.d_mnt_sb with
    | some _ => acc
    | none =>
      match acc with
      | none => some (i, d.d_count)
      | some (j, c) => if d.d_count < c then some (i, d.d_count) else some (j, c)

/-- The eviction-candidate scan of vfs_dentry_get over the whole table
(lowest_index / lowest_count of the C loop). -/
def findVictimGo : List Dentry → Nat → Option (Nat × Nat) → Option (Nat × Nat)
  | [], _, acc => acc
  | d :: t, i, acc => findVictimGo t (i + 1) (victimStep i d acc)

/-- The eviction candidate chosen by a full scan of the dentry table. -/
def findVictim (tbl : List Dentry) : Option (Nat × Nat) :=
  findVictimGo tbl 0 none

/-- A freshly created dentry as vfs_dentry_get builds it: name duplicated,
counter 1, vnode number 0, not a mount point. -/
def newDentry (name : String) (parent : Option Nat) (sb : Option Nat) : Dentry :=
  { d_name := some name, d_vno := 0, d_count := 1, d_parent := parent,
    d_sb := sb, d_mnt_sb := none }

/-- vfs_dentry_get: linear scan for (parent, name); on a hit the counter
is incremented and the slot returned.  On a miss, no candidate at all
means E_LIMIT; otherwise the candidate slot is reset first, then the
name allocation may fail with E_NOMEM (leaving the slot reset), else
the slot is filled, deriving the owning superblock from the parent
(read through the parent pointer after the reset, as the C does). -/
def vfs_dentry_get (tbl : List Dentry) (parent : Option Nat) (name : String)
    (nameAllocOk : Bool) : List Dentry × Res Nat :=
  match findMatch tbl parent name with
  | some i => (modifyAt tbl i (fun d => { d with d_count := d.d_count + 1 }), Res.ok i)
  | none =>
    match findVictim tbl with
    | none => (tbl, Res.err Errno.E_LIMIT)
    | some (i, _) =>
      let tbl1 := tbl.set i emptyDentry
      if nameAllocOk then
        match parent with
        | none => (tbl1.set i (newDentry name none none), Res.ok i)
        | some p =>
          match tbl1[p]? with
          | none => (tbl1, Res.crash)
          | some pd =>
            let sb := match pd.d_mnt_sb with
                      | none => pd.d_sb
                      | some ms => some ms
            (tbl1.set i (newDentry name parent sb), Res.ok i)
      else (tbl1, Res.err Errno.E_NOMEM)

/-- The pass-1 test of vfs_dentry_unmount_sb: an occupied mount-point
slot owned by sb. -/
def nestedMountOf (sb : Nat) (d : Dentry) : Bool :=
  d.d_name.isSome && d.d_mnt_sb.isSome && decide (d.d_sb = some sb)

/-- vfs_dentry_unmount_sb: pass 1 refuses (false) when a nested mount
point owned by sb exists; pass 2 resets every occupied slot owned by
sb. -/
def vfs_dentry_unmount_sb (tbl : List Dentry) (sb : Nat) : List Dentry × Bool :=
  if tbl.any (nestedMountOf sb) then (tbl, false)
  else (tbl.map (fun d => if d.d_name.isSome && decide (d.d_sb = some sb)
                          then emptyDentry else d), true)

/-- vfs_vnode_lookup: first cache entry with the (superblock, vnode
number) key. -/
def vfs_vnode_lookup : List Vnode → Nat → Nat → Option Vnode
  | [], _, _ => none
  | v :: t, sb, vno =>
    if v.v_sb = sb ∧ v.v_no = vno then some v else vfs_vnode_lookup t sb vno

/-- Updates the first cache entry with the given key. -/
def updateFirstVnode : List Vnode → Nat → Nat → (Vnode → Vnode) → List Vnode
  | [], _, _, _ => []
  | v :: t, sb, vno, f =>
    if v.v_sb = sb ∧ v.v_no = vno then f v :: t
    else v :: updateFirstVnode t sb vno f

/-- vfs_vnode_dealloc on a cached node: removes the first entry with the
given key (list_find_del). -/
def removeFirstVnode : List Vnode → Nat → Nat → List Vnode
  | [], _, _ => []
  | v :: t, sb, vno =>
    if v.v_sb = sb ∧ v.v_no = vno then t else v :: removeFirstVnode t sb vno

/-- vfs_vnode_release: decrements the reference counter; when it falls
below 1 the backend destroy_vnode callback runs (the third component
counts these calls): on failure E_Io is returned and the entry stays
cached with the decremented counter, on success the entry is removed.
A key not in the cache models a dangling pointer (crash). -/
def vfs_vnode_release (B : Backend) (vs : List Vnode) (sb vno : Nat) :
    List Vnode × Res Unit × Nat :=
  match vfs_vnode_lookup vs sb vno with
  | none => (vs, Res.crash, 0)
  | some n =>
    let vs1 := updateFirstVnode vs sb vno (fun v => { v with v_count := v.v_count - 1 })
    if n.v_count - 1 < 1 then
      if B.destroy_vnode sb vno then (removeFirstVnode vs1 sb vno, Res.ok (), 1)
      else (vs1, Res.err Errno.E_Io, 1)
    else (vs1, Res.ok (), 0)

/-- vfs_vnode_get_or_read: on a cache hit the reference counter is
incremented; on a miss a blank node is preallocated (E_NOMEM on
allocation failure), the backend read_vnode populates it (its error is
propagated verbatim and the blank discarded), it is inserted into the
cache (on list_add failure the backend destroy runs once and E_NOMEM is
returned, the OutOfMemory kind of the spec) and acquired to count 1. -/
def vfs_vnode_get_or_read (B : Backend) (vs : List Vnode) (sb vno : Nat)
    (preallocOk addOk : Bool) : List Vnode × Res Vnode × Nat :=
  match vfs_vnode_lookup vs sb vno with
  | some n =>
    (updateFirstVnode vs sb vno (fun v => { v with v_count := v.v_count + 1 }),
     Res.ok { n with v_count := n.v_count + 1 }, 0)
  | none =>
    if preallocOk then
      match B.read_vnode sb vno with
      | Except.error e => (vs, Res.err e, 0)
      | Except.ok mode =>
        if addOk then
          let n1 : Vnode := { v_no := vno, v_mode := mode, v_count := 1, v_sb := sb }
          (n1 :: vs, Res.ok n1, 0)
        else (vs, Res.err Errno.E_NOMEM, 1)
    else (vs, Res.err Errno.E_NOMEM, 0)

/-- vfs_vnode_unmount_sb: succeeds (true) exactly when no cached vnode
belongs to the superblock. -/
def vfs_vnode_unmount_sb (vs : List Vnode) (sb : Nat) : Bool :=
  !(vs.any (fun v => decide (v.v_sb = sb)))

/-- vfs_sb_lookup: first registry entry for the device id. -/
def vfs_sb_lookup : List Sb → Nat → Option Sb
  | [], _ => none
  | s :: t, devid => if s.sb_devid = devid then some s else vfs_sb_lookup t devid

/-- Dereferences a superblock pointer: first registry entry with the
arena id. -/
def getSb : List Sb → Nat → Option Sb
  | [], _ => none
  | s :: t, sbid => if s.sb_id = sbid then some s else getSb t sbid

/-- Updates the registry entry with the given arena id. -/
def updateFirstSb : List Sb → Nat → (Sb → Sb) → List Sb
  | [], _, _ => []
  | s :: t, sbid, f =>
    if s.sb_id = sbid then f s :: t else s :: updateFirstSb t sbid f

/-- The removal step of vfs_sb_dealloc: list_find_del keyed by the
device id removes the first entry with that device id. -/
def eraseFirstDevid : List Sb → Nat → List Sb
  | [], _ => []
  | s :: t, devid => if s.sb_devid = devid then t else s :: eraseFirstDevid t devid

/-- vfs_sb_dealloc: reads the FilesystemType back-reference (a NULL
value crashes, as the C dereferences it unconditionally); when the
type's ft_kill_sb callback exists it runs first, E_Io aborting the
deallocation with the entry left in the registry; then the entry is
removed by device id. -/
def vfs_sb_dealloc (B : Backend) (sbs : List Sb) (sbid : Nat) : List Sb × Res Unit :=
  match getSb sbs sbid with
  | none => (sbs, Res.crash)
  | some sb =>
    match sb.sb_fs_type with
    | none => (sbs, Res.crash)
    | some ft =>
      if B.ft_has_kill ft then
        if B.ft_kill_sb ft sbid then (eraseFirstDevid sbs sb.sb_devid, Res.ok ())
        else (sbs, Res.err Errno.E_Io)
      else (eraseFirstDevid sbs sb.sb_devid, Res.ok ())

/-- The strtok tokenizer on the separator character, accumulating the
current component in reverse (string.h is not under src/; strtok skips
empty components, so leading, trailing and doubled separators produce
none). -/
def tokAux : List Char → List Char → List String → List String
  | [], cur, acc => if cur = [] then acc else acc ++ [String.mk cur.reverse]
  | c :: rest, cur, acc =>
    if c = '/' then
      tokAux rest [] (if cur = [] then acc else acc ++ [String.mk cur.reverse])
    else tokAux rest (c :: cur) acc

/-- Path tokenization of vfs_lookup: the path is cloned and split on
the separator (modelled from the spec for the missing string.h / mem.h:
the clone holds the path's characters and strtok walks it). -/
def splitPath (p : String) : List String := tokAux p.data [] []

/-- The (superblock, vnode number) pair vfs_lookup_in_dentry loads the
directory vnode from: a mount point uses the mounted superblock and its
root vnode number, a plain dentry its own superblock and vnode number.
none models a NULL or dangling superblock pointer (the subsequent
read_vnode call through it would crash). -/
def dirLoadKey (sbs : List Sb) (dird : Dentry) : Option (Nat × Nat) :=
  match dird.d_mnt_sb with
  | none =>
    match dird.d_sb with
    | none => none
    | some s => some (s, dird.d_vno)
  | some ms =>
    match getSb sbs ms with
    | none => none
    | some r => some (ms, r.sb_root_vno)

/-- vfs_lookup_in_dentry: one path-resolution step.  A dentry-cache
failure of any kind is reported as E_LIMIT; a dentry that already has a
vnode number is returned at once; otherwise the directory vnode is
loaded (failure resets the new dentry and yields E_CORRUPT), checked to
be a directory (else reset, release, E_NODIR), and the backend lookup
operation fills the new dentry's vnode number (its error is propagated
verbatim after reset and release). -/
def vfs_lookup_in_dentry (B : Backend) (sbs : List Sb) (tbl : List Dentry)
    (vs : List Vnode) (dir : Option Nat) (name : String) (A : AllocOk) :
    (List Dentry × List Vnode) × Res Nat :=
  match vfs_dentry_get tbl dir name A.name with
  | (tbl1, Res.crash) => ((tbl1, vs), Res.crash)
  | (tbl1, Res.err _) => ((tbl1, vs), Res.err Errno.E_LIMIT)
  | (tbl1, Res.nullRet) => ((tbl1, vs), Res.err Errno.E_LIMIT)
  | (tbl1, Res.ok objIdx) =>
    match tbl1[objIdx]? with
    | none => ((tbl1, vs), Res.crash)
    | some obj =>
      if obj.d_vno ≠ 0 then ((tbl1, vs), Res.ok objIdx)
      else
        match dir with
        | none => ((tbl1, vs), Res.crash)
        | some dIdx =>
          match tbl1[dIdx]? with
          | none => ((tbl1, vs), Res.crash)
          | some dird =>
            match dirLoadKey sbs dird with
            | none => ((tbl1, vs), Res.crash)
            | some (ls, lv) =>
              match vfs_vnode_get_or_read B vs ls lv A.prealloc A.add with
              | (vs1, Res.ok dirNode, _) =>
                if FILE_TYPE dirNode.v_mode ≠ FILE_TYPE_DIRECTORY then
                  ((tbl1.set objIdx emptyDentry,
                    (vfs_vnode_release B vs1 ls lv).1), Res.err Errno.E_NODIR)
                else
                  match B.iops_lookup ls lv name with
                  | Except.error e =>
                    ((tbl1.set objIdx emptyDentry,
                      (vfs_vnode_release B vs1 ls lv).1), Res.err e)
                  | Except.ok childVno =>
                    ((modifyAt tbl1 objIdx (fun d => { d with d_vno := childVno }),
                      (vfs_vnode_release B vs1 ls lv).1), Res.ok objIdx)
              | (vs1, Res.err _, _) =>
                ((tbl1.set objIdx emptyDentry, vs1), Res.err Errno.E_CORRUPT)
              | (vs1, _, _) => ((tbl1, vs1), Res.crash)

/-- The traversal loop of vfs_lookup: each component is resolved in the
current dentry; a step failure returns NULL with the step's errno; when
all components are consumed the C code unconditionally returns NULL
without setting errno (the unfinished final step). -/
def vfs_lookup_go (B : Backend) (sbs : List Sb) :
    List String → List Dentry → List Vnode → Option Nat → AllocOk →
    (List Dentry × List Vnode) × Res Nat
  | [], tbl, vs, _, _ => ((tbl, vs), Res.nullRet)
  | c :: rest, tbl, vs, cur, A =>
    match vfs_lookup_in_dentry B sbs tbl vs cur c A with
    | (st1, Res.ok nxt) => vfs_lookup_go B sbs rest st1.1 st1.2 (some nxt) A
    | (st1, Res.err e) => (st1, Res.err e)
    | (st1, _) => (st1, Res.crash)

/-- vfs_lookup: clones the path (E_NOMEM on allocation failure),
tokenizes it and walks from the root dentry. -/
def vfs_lookup (B : Backend) (sbs : List Sb) (tbl : List Dentry)
    (vs : List Vnode) (root : Option Nat) (path : String) (A : AllocOk) :
    (List Dentry × List Vnode) × Res Nat :=
  if A.path then vfs_lookup_go B sbs (splitPath path) tbl vs root A
  else ((tbl, vs), Res.err Errno.E_NOMEM)

/-- A superblock as vfs_sb_alloc initializes it. -/
def newSb (devid sbid : Nat) : Sb :=
  { sb_devid := devid, sb_id := sbid, sb_flags := SbFlag.unused,
    sb_blocksize := VFS_DEFAULT_BLK_SIZE, sb_blocks := 0, sb_max_bytes := 0,
    sb_root_vno := 0, sb_fs_type := none, sb_mnt := none }

/-- The tail of vfs_mount once the mount-point dentry dIdx is fixed:
filesystem-type lookup (E_NOKOBJ), double-mount check (E_MOUNTED),
superblock allocation (E_NOMEM), the probe callback (on failure
vfs_sb_dealloc runs on a superblock whose fs-type back-reference is
still NULL), the fs-type link, the backend mount callback (on failure
ft_kill_sb is invoked unconditionally and then vfs_sb_dealloc, whose
result is ignored), and the commit, which links the dentry to the new
superblock and records a parentless mount point as the root dentry. -/
def vfs_mount_tail (B : Backend) (st : St) (devid : Nat) (ftName : String)
    (dIdx : Nat) (A : AllocOk) : St × Res Unit :=
  if st.fts.contains ftName then
    if (vfs_sb_lookup st.sbs devid).isSome then
      ({ st with dentries := st.dentries.set dIdx emptyDentry }, Res.err Errno.E_MOUNTED)
    else if A.sb then
      let sbid := st.nextSb
      let sbs1 := newSb devid sbid :: st.sbs
      let st1 := { st with sbs := sbs1, nextSb := sbid + 1 }
      match B.ft_get_sb ftName devid with
      | Except.error _ =>
        match vfs_sb_dealloc B sbs1 sbid with
        | (sbs2, Res.crash) => ({ st1 with sbs := sbs2 }, Res.crash)
        | (sbs2, _) =>
          ({ st1 with sbs := sbs2, dentries := st.dentries.set dIdx emptyDentry },
           Res.err Errno.E_INVFS)
      | Except.ok cfg =>
        let sbs2 := updateFirstSb sbs1 sbid (fun sb =>
          { sb with sb_root_vno := cfg.root_vno, sb_blocksize := cfg.blocksize,
                    sb_blocks := cfg.blocks, sb_max_bytes := cfg.max_bytes,
                    sb_fs_type := some ftName })
        let st2 := { st1 with sbs := sbs2 }
        if B.sb_mount sbid then
          let tbl2 := modifyAt st2.dentries dIdx (fun d => { d with d_mnt_sb := some sbid })
          let rt := match tbl2[dIdx]? with
                    | some d => if d.d_parent = none then some dIdx else st2.root
                    | none => st2.root
          ({ st2 with dentries := tbl2, root := rt }, Res.ok ())
        else
          if B.ft_has_kill ftName then
            match vfs_sb_dealloc B st2.sbs sbid with
            | (sbs3, Res.crash) => ({ st2 with sbs := sbs3 }, Res.crash)
            | (sbs3, _) =>
              ({ st2 with sbs := sbs3, dentries := st.dentries.set dIdx emptyDentry },
               Res.err Errno.E_Io)
          else (st2, Res.crash)
    else
      ({ st with dentries := st.dentries.set dIdx emptyDentry }, Res.err Errno.E_NOMEM)
  else
    ({ st with dentries := st.dentries.set dIdx emptyDentry }, Res.err Errno.E_NOKOBJ)

/-- vfs_mount: resolves the mount point (fresh root dentry when nothing
is mounted and the path is the root, E_NOROOT for any other path then;
otherwise path resolution with E_NOENT on failure, E_ACCESS on an
existing mount point, E_CORRUPT when the mount point's vnode cannot be
loaded, E_NODIR when it is not a directory, and E_NOTIMP for a root
remount), then runs the registration and commit tail. -/
def vfs_mount (B : Backend) (st : St) (devid : Nat) (path : String)
    (ftName : String) (A : AllocOk) : St × Res Unit :=
  match st.root with
  | none =>
    if path = "/" then
      match vfs_dentry_get st.dentries none "/" A.name with
      | (tbl1, Res.ok dIdx) => vfs_mount_tail B { st with dentries := tbl1 } devid ftName dIdx A
      | (tbl1, Res.crash) => ({ st with dentries := tbl1 }, Res.crash)
      | (tbl1, _) => ({ st with dentries := tbl1 }, Res.err Errno.E_NOMEM)
    else (st, Res.err Errno.E_NOROOT)
  | some _ =>
    if path = "/" then (st, Res.err Errno.E_NOTIMP)
    else
      match vfs_lookup B st.sbs st.dentries st.vnodes st.root path A with
      | (st1, Res.ok dIdx) =>
        let stA := { st with dentries := st1.1, vnodes := st1.2 }
        match st1.1[dIdx]? with
        | none => (stA, Res.crash)
        | some d =>
          if d.d_mnt_sb.isSome then (stA, Res.err Errno.E_ACCESS)
          else
            match d.d_sb with
            | none => (stA, Res.crash)
            | some s =>
              match vfs_vnode_get_or_read B st1.2 s d.d_vno A.prealloc A.add with
              | (vs2, Res.ok n, _) =>
                let stB := { stA with vnodes := vs2 }
                if FILE_TYPE n.v_mode ≠ FILE_TYPE_DIRECTORY then
                  (stB, Res.err Errno.E_NODIR)
                else vfs_mount_tail B stB devid ftName dIdx A
              | (vs2, _, _) => ({ stA with vnodes := vs2 }, Res.err Errno.E_CORRUPT)
      | (st1, Res.crash) => ({ st with dentries := st1.1, vnodes := st1.2 }, Res.crash)
      | (st1, _) => ({ st with dentries := st1.1, vnodes := st1.2 }, Res.err Errno.E_NOENT)

/-- vfs_sb_unmount: E_NOTMOUNTED unless the flag is mounted; E_CORRUPT
when a cached vnode still belongs to the superblock; E_BUSY when a
nested mount point does (pass 1), otherwise every dentry owned by the
superblock is reset (pass 2) BEFORE the backend unmount callback runs
(whose failure yields E_Io with the dentries already gone); then the
mount-point dentry's back-reference is cleared (a NULL sb_mnt crashes)
and the superblock is reset to unused. -/
def vfs_sb_unmount (B : Backend) (st : St) (sbid : Nat) : St × Res Unit :=
  match getSb st.sbs sbid with
  | none => (st, Res.crash)
  | some sb =>
    if sb.sb_flags ≠ SbFlag.mounted then (st, Res.err Errno.E_NOTMOUNTED)
    else if !(vfs_vnode_unmount_sb st.vnodes sbid) then (st, Res.err Errno.E_CORRUPT)
    else
      match vfs_dentry_unmount_sb st.dentries sbid with
      | (_, false) => (st, Res.err Errno.E_BUSY)
      | (tbl1, true) =>
        if B.sb_unmount sbid then
          match sb.sb_mnt with
          | none => ({ st with dentries := tbl1 }, Res.crash)
          | some mp =>
            match tbl1[mp]? with
            | none => ({ st with dentries := tbl1 }, Res.crash)
            | some _ =>
              let tbl2 := modifyAt tbl1 mp (fun d => { d with d_mnt_sb := none })
              let sbs1 := updateFirstSb st.sbs sbid (fun s =>
                { s with sb_flags := SbFlag.unused, sb_mnt := none })
              ({ st with dentries := tbl2, sbs := sbs1 }, Res.ok ())
        else ({ st with dentries := tbl1 }, Res.err Errno.E_Io)

/-- The dentry table in its initial (vfs_init, memset) state. -/
def emptyTable : List Dentry := List.replicate VFS_MAX_DENTRIES emptyDentry

/-- A well-behaved backend: every callback succeeds; directories have
mode 0x4000, lookups resolve to vnode number 7, probes report root
vnode number 1. -/
def okBackend : Backend :=
  { read_vnode := fun _ _ => Except.ok 16384
  , destroy_vnode := fun _ _ => true
  , iops_lookup := fun _ _ _ => Except.ok 7
  , sb_mount := fun _ => true
  , sb_unmount := fun _ => true
  , ft_get_sb := fun _ _ => Except.ok { root_vno := 1, blocksize := 1024, blocks := 0, max_bytes := 0 }
  , ft_has_kill := fun _ => true
  , ft_kill_sb := fun _ _ => true }

/-- All allocations succeed. -/
def allOk : AllocOk :=
  { name := true, path := true, prealloc := true, add := true, sb := true }

/-- The VFS state right after vfs_init with one registered filesystem
type "t". -/
def st0 : St :=
  { fts := ["t"], sbs := [], dentries := emptyTable, vnodes := [],
    root := none, nextSb := 0 }

/-- The state after successfully mounting device 1 at the root. -/
def st1 : St := (vfs_mount okBackend st0 1 "/" "t" allOk).1

/-- A backend whose filesystem-type probe callback fails. -/
def badProbeBackend : Backend :=
  { okBackend with ft_get_sb := fun _ _ => Except.error Errno.E_Io }

/-- A superblock in the mounted state (flag mounted, mount point at
dentry slot 0), as the spec's state machine describes it. -/
def sbMounted : Sb :=
  { sb_devid := 1, sb_id := 1, sb_flags := SbFlag.mounted,
    sb_blocksize := 1024, sb_blocks := 0, sb_max_bytes := 0,
    sb_root_vno := 1, sb_fs_type := some "t", sb_mnt := some 0 }

/-- The root dentry slot acting as the mount point of superblock 1. -/
def rootMpDentry : Dentry :=
  { d_name := some "/", d_vno := 0, d_count := 1, d_parent := none,
    d_sb := none, d_mnt_sb := some 1 }

/-- A plain dentry owned by superblock 1. -/
def ownedDentry : Dentry :=
  { d_name := some "a", d_vno := 7, d_count := 1, d_parent := some 0,
    d_sb := some 1, d_mnt_sb := none }

/-- A state with superblock 1 mounted at the root dentry (slot 0) and
one plain dentry "a" (slot 1) owned by it. -/
def stMounted : St :=
  { fts := ["t"], sbs := [sbMounted],
    dentries := (emptyTable.set 0 rootMpDentry).set 1 ownedDentry,
    vnodes := [], root := some 0, nextSb := 2 }

/-- A backend whose superblock unmount callback fails. -/
def badUnmountBackend : Backend :=
  { okBackend with sb_unmount := fun _ => false }

/-- A backend whose destroy_vnode callback fails. -/
def badDestroyBackend : Backend :=
  { okBackend with destroy_vnode := fun _ _ => false }

/-- All allocations succeed except the dentry-name duplication. -/
def noNameAlloc : AllocOk :=
  { name := false, path := true, prealloc := true, add := true, sb := true }

/-- A table whose slot 3 holds an occupied dentry "v" with the lowest
frequency counter 2 among 100 occupied slots of counter 5. -/
def fullTable : List Dentry :=
  (List.replicate VFS_MAX_DENTRIES
    { d_name := some "b", d_vno := 1, d_count := 5, d_parent := some 0,
      d_sb := some 1, d_mnt_sb := none }).set 3
    { d_name := some "v", d_vno := 2, d_count := 2, d_parent := some 0,
      d_sb := some 1, d_mnt_sb := none }

/-- A cached vnode with reference count 2. -/
def vnX : Vnode := { v_no := 5, v_mode := 16384, v_count := 2, v_sb := 1 }

/-- The superblock as it stands after a successful probe and fs-type
link in vfs_mount. -/
def probedSb (devid sbid : Nat) (cfg : SbCfg) (ftName : String) : Sb :=
  { newSb devid sbid with
      sb_root_vno := cfg.root_vno, sb_blocksize := cfg.blocksize,
      sb_blocks := cfg.blocks, sb_max_bytes := cfg.max_bytes,
      sb_fs_type := some ftName }

/-- The traversal loop of vfs_lookup never produces a success: the
final step returns NULL unconditionally and step failures propagate. -/
theorem vfs_lookup_go_no_ok (B : Backend) (sbs : List Sb) (A : AllocOk) :
    ∀ (comps : List String) (tbl : List Dentry) (vs : List Vnode)
    (cur : Option Nat),
    Res.isOk (vfs_lookup_go B sbs comps tbl vs cur A).2 = false := by
  intro comps
  induction comps with
  | nil => intro tbl vs cur; rfl
  | cons c rest ih =>
    intro tbl vs cur
    show Res.isOk (vfs_lookup_go B sbs (c :: rest) tbl vs cur A).2 = false
    rw [vfs_lookup_go]
    rcases h : vfs_lookup_in_dentry B sbs tbl vs cur c A with ⟨st1, r⟩
    cases r with
    | ok nxt => exact ih st1.1 st1.2 (some nxt)
    | err e => rfl
    | nullRet => rfl
    | crash => rfl

/-- Claim C1: path resolution should return the final resolved dentry
of a fully successful walk, and resolve the empty / root path to the
root dentry.  The code instead ends vfs_lookup with an unconditional
`return NULL` (the `TODO: Here.` line), so no call of vfs_lookup, on
any state, any path and any allocation outcome, ever returns a dentry:
even the root path and fully resolvable paths report failure. -/
theorem vfs_lookup_never_succeeds (B : Backend) (sbs : List Sb)
    (tbl : List Dentry) (vs : List Vnode) (root : Option Nat)
    (path : String) (A : AllocOk) :
    Res.isOk (vfs_lookup B sbs tbl vs root path A).2 = false := by
  by_cases hA : A.path
  · simp only [vfs_lookup, hA, if_true]
    exact vfs_lookup_go_no_ok B sbs A (splitPath path) tbl vs root
  · simp only [vfs_lookup, hA, if_false]
    rfl

/-- Claim C3: after the successful mount of device 1 at "/", the newly
created superblock still has flag unused and a NULL mount-point
back-reference (vfs_mount never writes sb_flags or sb_mnt), refuting
the claimed post-state flag Mounted with non-null back-references. -/
theorem vfs_mount_success_leaves_sb_unused :
    (vfs_mount okBackend st0 1 "/" "t" allOk).2 = Res.ok () ∧
    (getSb (vfs_mount okBackend st0 1 "/" "t" allOk).1.sbs 0).map
      (fun s => (s.sb_flags, s.sb_mnt, s.sb_fs_type)) =
      some (SbFlag.unused, none, some "t") := by
  exact ⟨rfl, rfl⟩

/-- Claim C8: when the probe callback fails, vfs_mount calls
vfs_sb_dealloc on a superblock whose fs-type back-reference is still
NULL (it is linked only after a successful probe), and vfs_sb_dealloc
dereferences that NULL pointer: the mount crashes instead of failing
with InvalidFilesystem. -/
theorem vfs_mount_probe_fail_crashes :
    (vfs_mount badProbeBackend st0 1 "/" "t" allOk).2 = Res.crash := by
  rfl

/-- Claim C2, counterexample: mounting device 2 at "/a" (an unresolvable
path, since vfs_lookup never succeeds) fails with E_NOENT, yet the walk
has permanently added the dentry "a" to slot 98 of the cache: the
Dentry Cache is not left as it was before the failed call. -/
theorem vfs_mount_error_mutates_dentry_cache :
    (vfs_mount okBackend st1 2 "/a" "t" allOk).2 = Res.err Errno.E_NOENT ∧
    st1.dentries[98]? = some emptyDentry ∧
    (vfs_mount okBackend st1 2 "/a" "t" allOk).1.dentries[98]? =
      some { d_name := some "a", d_vno := 7, d_count := 1,
             d_parent := some 99, d_sb := some 0, d_mnt_sb := none } := by
  exact ⟨rfl, rfl, rfl⟩

/-- Claim C5, counterexample: unmounting superblock 1 with a failing
backend unmount callback returns E_Io, but the dentry "a" owned by the
superblock has already been reset: the invalidation happens BEFORE the
backend callback, so a failed unmount is not left retryable with its
dentries intact. -/
theorem vfs_sb_unmount_io_fail_already_reset :
    (vfs_sb_unmount badUnmountBackend stMounted 1).2 = Res.err Errno.E_Io ∧
    stMounted.dentries[1]? = some ownedDentry ∧
    ownedDentry.d_name = some "a" ∧
    (vfs_sb_unmount badUnmountBackend stMounted 1).1.dentries[1]? =
      some emptyDentry := by
  exact ⟨rfl, rfl, rfl, rfl⟩

/-- Claim C7, counterexample: acquire vnode (1, 5) on an empty cache
(loaded, count 1), then release it with a failing destroy callback: the
release reports E_Io and the vnode is STILL in the cache with count 0,
refuting "present in the cache iff the reference count is at least 1". -/
theorem vfs_vnode_release_fail_leaves_count_zero :
    (vfs_vnode_get_or_read badDestroyBackend [] 1 5 true true).1 =
      [{ v_no := 5, v_mode := 16384, v_count := 1, v_sb := 1 }] ∧
    (vfs_vnode_release badDestroyBackend
      (vfs_vnode_get_or_read badDestroyBackend [] 1 5 true true).1 1 5).2.1 =
      Res.err Errno.E_Io ∧
    vfs_vnode_lookup
      (vfs_vnode_release badDestroyBackend
        (vfs_vnode_get_or_read badDestroyBackend [] 1 5 true true).1 1 5).1 1 5 =
      some { v_no := 5, v_mode := 16384, v_count := 0, v_sb := 1 } := by
  exact ⟨rfl, rfl, rfl⟩

/-- Claim C10: whenever the dentry cache reports a failure of any kind
to a path-resolution step (E_LIMIT for a table full of mount points, or
E_NOMEM from the name duplication), vfs_lookup_in_dentry reports the
error as E_LIMIT, overwriting the errno the dentry cache had set. -/
theorem vfs_lookup_in_dentry_reports_limit (B : Backend) (sbs : List Sb)
    (tbl : List Dentry) (vs : List Vnode) (dir : Option Nat) (name : String)
    (A : AllocOk) (e : Errno)
    (h : (vfs_dentry_get tbl dir name A.name).2 = Res.err e) :
    (vfs_lookup_in_dentry B sbs tbl vs dir name A).2 = Res.err Errno.E_LIMIT := by
  rcases hg : vfs_dentry_get tbl dir name A.name with ⟨tbl1, r⟩
  rw [hg] at h
  simp only at h
  subst h
  simp only [vfs_lookup_in_dentry, hg]

/-- Witness for C10: on the empty table a miss with a failing name
allocation makes the dentry cache report E_NOMEM, and the lookup step
reports E_LIMIT. -/
theorem vfs_lookup_in_dentry_reports_limit_witness :
    (vfs_dentry_get emptyTable (some 0) "x" noNameAlloc.name).2 =
      Res.err Errno.E_NOMEM ∧
    (vfs_lookup_in_dentry okBackend [] emptyTable [] (some 0) "x" noNameAlloc).2 =
      Res.err Errno.E_LIMIT := by
  exact ⟨rfl,
    vfs_lookup_in_dentry_reports_limit okBackend [] emptyTable [] (some 0) "x"
      noNameAlloc Errno.E_NOMEM rfl⟩

/-- Claim C9: a get_or_create miss whose name duplication fails returns
E_NOMEM with the chosen victim slot already reset and left empty: the
eviction (including the loss of an evicted entry's name) is not rolled
back on the allocation failure. -/
theorem vfs_dentry_get_nomem_slot_already_reset (tbl : List Dentry)
    (parent : Option Nat) (name : String) (i c : Nat)
    (hmiss : findMatch tbl parent name = none)
    (hvic : findVictim tbl = some (i, c))
    (hi : i < tbl.length) :
    vfs_dentry_get tbl parent name false =
      (tbl.set i emptyDentry, Res.err Errno.E_NOMEM) ∧
    (vfs_dentry_get tbl parent name false).1[i]? = some emptyDentry := by
  have heq : vfs_dentry_get tbl parent name false =
      (tbl.set i emptyDentry, Res.err Errno.E_NOMEM) := by
    simp only [vfs_dentry_get, hmiss, hvic, Bool.false_eq_true, if_false]
  refine ⟨heq, ?_⟩
  rw [heq]
  simp only
  rw [List.getElem?_set_eq_of_lt emptyDentry hi]

/-- Witness for C9: on the full table the miss for name "x" picks the
occupied victim slot 3, and the failing name allocation leaves it
reset. -/
theorem vfs_dentry_get_nomem_slot_already_reset_witness :
    findMatch fullTable (some 0) "x" = none ∧
    findVictim fullTable = some (3, 2) ∧
    vfs_dentry_get fullTable (some 0) "x" false =
      (fullTable.set 3 emptyDentry, Res.err Errno.E_NOMEM) ∧
    (vfs_dentry_get fullTable (some 0) "x" false).1[3]? = some emptyDentry := by
  refine ⟨rfl, rfl, ?_⟩
  exact vfs_dentry_get_nomem_slot_already_reset fullTable (some 0) "x" 3 2
    rfl rfl (by decide)

/-- The eviction scan never raises the candidate's counter. -/
theorem findVictimGo_le_acc : ∀ (l : List Dentry) (i j0 c0 j c : Nat),
    findVictimGo l i (some (j0, c0)) = some (j, c) → c ≤ c0 := by
  intro l
  induction l with
  | nil =>
    intro i j0 c0 j c h
    simp only [findVictimGo, Option.some.injEq, Prod.mk.injEq] at h
    omega
  | cons hd t ih =>
    intro i j0 c0 j c h
    simp only [findVictimGo] at h
    rcases hn : hd.d_name with _ | nm
    · simp only [victimStep, hn] at h
      have := ih (i + 1) i 0 j c h
      omega
    · rcases hm : hd.d_mnt_sb with _ | ms
      · by_cases hlt : hd.d_count < c0
        · simp only [victimStep, hn, hm, if_pos hlt] at h
          have := ih (i + 1) i hd.d_count j c h
          omega
        · simp only [victimStep, hn, hm, if_neg hlt] at h
          exact ih (i + 1) j0 c0 j c h
      · simp only [victimStep, hn, hm] at h
        exact ih (i + 1) j0 c0 j c h

/-- The chosen candidate's counter is a lower bound on the counters of
the occupied non-mount-point slots of the scanned suffix. -/
theorem findVictimGo_min : ∀ (l : List Dentry) (i : Nat) (acc : Option (Nat × Nat))
    (j c : Nat), findVictimGo l i acc = some (j, c) →
    ∀ (k : Nat) (d : Dentry), l[k]? = some d → d.d_name ≠ none →
    d.d_mnt_sb = none → c ≤ d.d_count := by
  intro l
  induction l with
  | nil =>
    intro i acc j c _ k d hk
    simp at hk
  | cons hd t ih =>
    intro i acc j c h k d hk hdn hdm
    cases k with
    | zero =>
      simp only [List.getElem?_cons_zero, Option.some.injEq] at hk
      subst hk
      simp only [findVictimGo] at h
      rcases hn : hd.d_name with _ | nm
      · exact absurd hn hdn
      · rcases acc with _ | ⟨j0, c0⟩
        · simp only [victimStep, hn, hdm] at h
          exact findVictimGo_le_acc t (i + 1) i hd.d_count j c h
        · by_cases hlt : hd.d_count < c0
          · simp only [victimStep, hn, hdm, if_pos hlt] at h
            exact findVictimGo_le_acc t (i + 1) i hd.d_count j c h
          · simp only [victimStep, hn, hdm, if_neg hlt] at h
            have := findVictimGo_le_acc t (i + 1) j0 c0 j c h
            omega
    | succ k2 =>
      simp only [List.getElem?_cons_succ] at hk
      simp only [findVictimGo] at h
      exact ih (i + 1) (victimStep i hd acc) j c h k2 d hk hdn hdm

/-- The chosen candidate is the incoming accumulator or a slot of the
scanned suffix: a free slot with counter 0, or an occupied
non-mount-point slot with its own counter. -/
theorem findVictimGo_source : ∀ (l : List Dentry) (i : Nat) (acc : Option (Nat × Nat))
    (j c : Nat), findVictimGo l i acc = some (j, c) →
    acc = some (j, c) ∨
    ∃ (k : Nat) (d : Dentry), l[k]? = some d ∧ j = i + k ∧
      ((d.d_name = none ∧ c = 0) ∨
       (d.d_name ≠ none ∧ d.d_mnt_sb = none ∧ c = d.d_count)) := by
  intro l
  induction l with
  | nil =>
    intro i acc j c h
    simp only [findVictimGo] at h
    exact Or.inl h
  | cons hd t ih =>
    intro i acc j c h
    simp only [findVictimGo] at h
    have hstep : victimStep i hd acc = acc ∨
        (victimStep i hd acc = some (i, 0) ∧ hd.d_name = none) ∨
        (victimStep i hd acc = some (i, hd.d_count) ∧ hd.d_name ≠ none ∧
         hd.d_mnt_sb = none) := by
      rcases hn : hd.d_name with _ | nm
      · exact Or.inr (Or.inl ⟨by simp [victimStep, hn], rfl⟩)
      · rcases hm : hd.d_mnt_sb with _ | ms
        · rcases acc with _ | ⟨j0, c0⟩
          · exact Or.inr (Or.inr ⟨by simp [victimStep, hn, hm], by simp, rfl⟩)
          · by_cases hlt : hd.d_count < c0
            · exact Or.inr (Or.inr ⟨by simp [victimStep, hn, hm, if_pos hlt],
                by simp, rfl⟩)
            · exact Or.inl (by simp [victimStep, hn, hm, if_neg hlt])
        · exact Or.inl (by simp [victimStep, hn, hm])
    rcases ih (i + 1) (victimStep i hd acc) j c h with hacc | ⟨k, d, hk, hj, hcase⟩
    · rcases hstep with h3 | ⟨h3, hfree2⟩ | ⟨h3, hocc2, hmnt2⟩
      · rw [h3] at hacc
        exact Or.inl hacc
      · rw [h3] at hacc
        simp only [Option.some.injEq, Prod.mk.injEq] at hacc
        refine Or.inr ⟨0, hd, List.getElem?_cons_zero, by omega,
          Or.inl ⟨hfree2, by omega⟩⟩
      · rw [h3] at hacc
        simp only [Option.some.injEq, Prod.mk.injEq] at hacc
        refine Or.inr ⟨0, hd, List.getElem?_cons_zero, by omega,
          Or.inr ⟨hocc2, hmnt2, by omega⟩⟩
    · exact Or.inr ⟨k + 1, d, by simpa using hk, by omega, hcase⟩

/-- Once the accumulator holds a slot satisfying FreeP with counter 0,
the scan's final candidate still satisfies FreeP with counter 0 (no
occupied slot can beat a zero counter). -/
theorem findVictimGo_acc_free (FreeP : Nat → Prop) :
    ∀ (l : List Dentry) (i j0 : Nat), FreeP j0 →
    (∀ (k : Nat) (d : Dentry), l[k]? = some d → d.d_name = none → FreeP (i + k)) →
    ∃ j, findVictimGo l i (some (j0, 0)) = some (j, 0) ∧ FreeP j := by
  intro l
  induction l with
  | nil =>
    intro i j0 hj0 _
    exact ⟨j0, rfl, hj0⟩
  | cons hd t ih =>
    intro i j0 hj0 hfree
    have hshift : ∀ (k : Nat) (d : Dentry), t[k]? = some d → d.d_name = none →
        FreeP (i + 1 + k) := by
      intro k d hk hdn
      have h2 := hfree (k + 1) d (by simpa using hk) hdn
      have h3 : i + (k + 1) = i + 1 + k := by omega
      rw [h3] at h2
      exact h2
    simp only [findVictimGo]
    rcases hn : hd.d_name with _ | nm
    · have hfi : FreeP i := by
        have h2 := hfree 0 hd List.getElem?_cons_zero hn
        have h3 : i + 0 = i := by omega
        rw [h3] at h2
        exact h2
      simpa [victimStep, hn] using ih (i + 1) i hfi hshift
    · rcases hm : hd.d_mnt_sb with _ | ms
      · simpa [victimStep, hn, hm, if_neg (Nat.not_lt_zero hd.d_count)] using
          ih (i + 1) j0 hj0 hshift
      · simpa [victimStep, hn, hm] using ih (i + 1) j0 hj0 hshift

/-- When the scanned suffix contains a free slot, the scan's final
candidate is a free slot with counter 0 (an empty slot is always
preferred over evicting an occupied one). -/
theorem findVictimGo_free_exists (FreeP : Nat → Prop) :
    ∀ (l : List Dentry) (i : Nat) (acc : Option (Nat × Nat)),
    (∀ (k : Nat) (d : Dentry), l[k]? = some d → d.d_name = none → FreeP (i + k)) →
    (∃ (k : Nat) (d : Dentry), l[k]? = some d ∧ d.d_name = none) →
    ∃ j, findVictimGo l i acc = some (j, 0) ∧ FreeP j := by
  intro l
  induction l with
  | nil =>
    intro i acc _ hex
    rcases hex with ⟨k, d, hk, _⟩
    simp at hk
  | cons hd t ih =>
    intro i acc hfree hex
    have hshift : ∀ (k : Nat) (d : Dentry), t[k]? = some d → d.d_name = none →
        FreeP (i + 1 + k) := by
      intro k d hk hdn
      have h2 := hfree (k + 1) d (by simpa using hk) hdn
      have h3 : i + (k + 1) = i + 1 + k := by omega
      rw [h3] at h2
      exact h2
    simp only [findVictimGo]
    rcases hn : hd.d_name with _ | nm
    · have hfi : FreeP i := by
        have h2 := hfree 0 hd List.getElem?_cons_zero hn
        have h3 : i + 0 = i := by omega
        rw [h3] at h2
        exact h2
      simpa [victimStep, hn] using findVictimGo_acc_free FreeP t (i + 1) i hfi hshift
    · have hext : ∃ (k : Nat) (d : Dentry), t[k]? = some d ∧ d.d_name = none := by
        rcases hex with ⟨k, d, hk, hdn⟩
        cases k with
        | zero =>
          simp only [List.getElem?_cons_zero, Option.some.injEq] at hk
          subst hk
          exact absurd hn (by simp [hdn])
        | succ k2 => exact ⟨k2, d, by simpa using hk, hdn⟩
      rcases hm : hd.d_mnt_sb with _ | ms
      · rcases acc with _ | ⟨j0, c0⟩
        · simpa [victimStep, hn, hm] using
            ih (i + 1) (some (i, hd.d_count)) hshift hext
        · by_cases hlt : hd.d_count < c0
          · simpa [victimStep, hn, hm, if_pos hlt] using
              ih (i + 1) (some (i, hd.d_count)) hshift hext
          · simpa [victimStep, hn, hm, if_neg hlt] using
              ih (i + 1) (some (j0, c0)) hshift hext
      · simpa [victimStep, hn, hm] using ih (i + 1) acc hshift hext

/-- Claim C6: when a get_or_create call misses and the scan picks an
occupied victim slot, that slot is not a mount point, its frequency
counter is lowest among all occupied non-mount-point slots, and no
empty slot exists in the table (an empty slot is always preferred);
moreover the call leaves every slot other than the victim untouched, so
in particular no mount-point entry is ever evicted. -/
theorem vfs_dentry_get_eviction_policy (tbl : List Dentry) (parent : Option Nat)
    (name : String) (aok : Bool) (i c : Nat) (d : Dentry)
    (hmiss : findMatch tbl parent name = none)
    (hvic : findVictim tbl = some (i, c))
    (hocc : tbl[i]? = some d)
    (hdn : d.d_name ≠ none) :
    d.d_mnt_sb = none ∧
    (∀ (k : Nat) (e : Dentry), tbl[k]? = some e → e.d_name ≠ none →
      e.d_mnt_sb = none → d.d_count ≤ e.d_count) ∧
    (∀ (k : Nat) (e : Dentry), tbl[k]? = some e → e.d_name ≠ none) ∧
    (∀ k : Nat, k ≠ i → (vfs_dentry_get tbl parent name aok).1[k]? = tbl[k]?) := by
  have hvic2 : findVictimGo tbl 0 none = some (i, c) := hvic
  have hcd : d.d_mnt_sb = none ∧ c = d.d_count := by
    rcases findVictimGo_source tbl 0 none i c hvic2 with hacc | ⟨k, e, hk, hj, hcase⟩
    · exact absurd hacc (by simp)
    · have hki : k = i := by omega
      subst hki
      rw [hocc] at hk
      have hed : e = d := by
        have := hk
        simpa using this.symm
      subst hed
      rcases hcase with ⟨hen, _⟩ | ⟨_, hem, hec⟩
      · exact absurd hen hdn
      · exact ⟨hem, hec⟩
  refine ⟨hcd.1, ?_, ?_, ?_⟩
  · intro k e hk hn2 hm2
    have := findVictimGo_min tbl 0 none i c hvic2 k e hk hn2 hm2
    omega
  · intro k e hk
    by_contra hfree
    have hfree2 : e.d_name = none := hfree
    have hex : ∃ (k2 : Nat) (d2 : Dentry), tbl[k2]? = some d2 ∧ d2.d_name = none :=
      ⟨k, e, hk, hfree2⟩
    have hhyp : ∀ (k2 : Nat) (d2 : Dentry), tbl[k2]? = some d2 → d2.d_name = none →
        (fun j => ∃ e2, tbl[j]? = some e2 ∧ e2.d_name = none) (0 + k2) := by
      intro k2 d2 hk2 hdn2
      have h3 : 0 + k2 = k2 := by omega
      rw [h3]
      exact ⟨d2, hk2, hdn2⟩
    rcases findVictimGo_free_exists
        (fun j => ∃ e2, tbl[j]? = some e2 ∧ e2.d_name = none)
        tbl 0 none hhyp hex with ⟨j, hj2, e2, hje, hjen⟩
    rw [hvic2] at hj2
    simp only [Option.some.injEq, Prod.mk.injEq] at hj2
    have hij : i = j := hj2.1
    rw [← hij] at hje
    rw [hocc] at hje
    have hed2 : e2 = d := by
      have := hje
      simpa using this.symm
    subst hed2
    exact hdn hjen
  · intro k hki
    have hne : i ≠ k := fun h => hki h.symm
    cases aok with
    | false =>
      simp only [vfs_dentry_get, hmiss, hvic, Bool.false_eq_true, if_false]
      exact List.getElem?_set_ne hne
    | true =>
      simp only [vfs_dentry_get, hmiss, hvic, if_true]
      cases parent with
      | none =>
        rw [List.getElem?_set_ne hne, List.getElem?_set_ne hne]
      | some p =>
        rcases hp : (tbl.set i emptyDentry)[p]? with _ | pd
        · simp only [hp]
          exact List.getElem?_set_ne hne
        · simp only [hp]
          rw [List.getElem?_set_ne hne, List.getElem?_set_ne hne]

/-- Witness for C6: on the full table whose slot 3 holds the occupied
lowest-counter dentry "v", the miss for "x" evicts exactly slot 3: it
is no mount point, its counter 2 is minimal, and every other slot is
untouched by the call. -/
theorem vfs_dentry_get_eviction_policy_witness :
    findMatch fullTable (some 0) "x" = none ∧
    findVictim fullTable = some (3, 2) ∧
    fullTable[3]? = some { d_name := some "v", d_vno := 2, d_count := 2,
                           d_parent := some 0, d_sb := some 1, d_mnt_sb := none } ∧
    ({ d_name := some "v", d_vno := 2, d_count := 2, d_parent := some 0,
       d_sb := some 1, d_mnt_sb := none } : Dentry).d_mnt_sb = none ∧
    (∀ k : Nat, k ≠ 3 → (vfs_dentry_get fullTable (some 0) "x" true).1[k]? =
      fullTable[k]?) := by
  have h := vfs_dentry_get_eviction_policy fullTable (some 0) "x" true 3 2
    { d_name := some "v", d_vno := 2, d_count := 2, d_parent := some 0,
      d_sb := some 1, d_mnt_sb := none } rfl rfl rfl (by simp)
  exact ⟨rfl, rfl, rfl, h.1, h.2.2.2⟩

/-- A cache lookup hit is a member of the cache. -/
theorem vfs_vnode_lookup_mem : ∀ (vs : List Vnode) (sb vno : Nat) (v : Vnode),
    vfs_vnode_lookup vs sb vno = some v → v ∈ vs := by
  intro vs
  induction vs with
  | nil => intro sb vno v h; simp [vfs_vnode_lookup] at h
  | cons hd t ih =>
    intro sb vno v h
    simp only [vfs_vnode_lookup] at h
    by_cases hk : hd.v_sb = sb ∧ hd.v_no = vno
    · rw [if_pos hk] at h
      simp only [Option.some.injEq] at h
      subst h
      exact List.mem_cons_self hd t
    · rw [if_neg hk] at h
      exact List.mem_cons_of_mem hd (ih sb vno v h)

/-- A lookup hit's fields satisfy the key. -/
theorem vfs_vnode_lookup_key : ∀ (vs : List Vnode) (sb vno : Nat) (v : Vnode),
    vfs_vnode_lookup vs sb vno = some v → v.v_sb = sb ∧ v.v_no = vno := by
  intro vs
  induction vs with
  | nil => intro sb vno v h; simp [vfs_vnode_lookup] at h
  | cons hd t ih =>
    intro sb vno v h
    simp only [vfs_vnode_lookup] at h
    by_cases hk : hd.v_sb = sb ∧ hd.v_no = vno
    · rw [if_pos hk] at h
      simp only [Option.some.injEq] at h
      subst h
      exact hk
    · rw [if_neg hk] at h
      exact ih sb vno v h

/-- Lookup misses when the key is absent from the cache's key list. -/
theorem vfs_vnode_lookup_eq_none : ∀ (vs : List Vnode) (sb vno : Nat),
    ((sb, vno) ∉ vs.map (fun w => (w.v_sb, w.v_no))) →
    vfs_vnode_lookup vs sb vno = none := by
  intro vs
  induction vs with
  | nil => intro sb vno _; rfl
  | cons hd t ih =>
    intro sb vno hnotin
    simp only [List.map_cons, List.mem_cons] at hnotin
    push_neg at hnotin
    simp only [vfs_vnode_lookup]
    rw [if_neg, ih sb vno hnotin.2]
    intro hk
    exact hnotin.1 (by rw [hk.1, hk.2])

/-- Updating the first hit with a key-preserving function maps the
lookup result. -/
theorem vfs_vnode_lookup_updateFirst (f : Vnode → Vnode)
    (hf : ∀ w, (f w).v_sb = w.v_sb ∧ (f w).v_no = w.v_no) :
    ∀ (vs : List Vnode) (sb vno : Nat),
    vfs_vnode_lookup (updateFirstVnode vs sb vno f) sb vno =
      (vfs_vnode_lookup vs sb vno).map f := by
  intro vs
  induction vs with
  | nil => intro sb vno; rfl
  | cons hd t ih =>
    intro sb vno
    by_cases hk : hd.v_sb = sb ∧ hd.v_no = vno
    · simp only [updateFirstVnode, if_pos hk, vfs_vnode_lookup]
      rw [if_pos ⟨by rw [(hf hd).1]; exact hk.1, by rw [(hf hd).2]; exact hk.2⟩]
      rfl
    · simp only [updateFirstVnode, if_neg hk, vfs_vnode_lookup, ih]

/-- Removing after a key-preserving update equals removing directly. -/
theorem removeFirst_updateFirst (f : Vnode → Vnode)
    (hf : ∀ w, (f w).v_sb = w.v_sb ∧ (f w).v_no = w.v_no) :
    ∀ (vs : List Vnode) (sb vno : Nat),
    removeFirstVnode (updateFirstVnode vs sb vno f) sb vno =
      removeFirstVnode vs sb vno := by
  intro vs
  induction vs with
  | nil => intro sb vno; rfl
  | cons hd t ih =>
    intro sb vno
    by_cases hk : hd.v_sb = sb ∧ hd.v_no = vno
    · simp only [updateFirstVnode, if_pos hk, removeFirstVnode]
      rw [if_pos ⟨by rw [(hf hd).1]; exact hk.1, by rw [(hf hd).2]; exact hk.2⟩]
    · simp only [updateFirstVnode, if_neg hk, removeFirstVnode, ih]

/-- Members of the cache after a removal were members before. -/
theorem mem_removeFirstVnode : ∀ (vs : List Vnode) (sb vno : Nat) (w : Vnode),
    w ∈ removeFirstVnode vs sb vno → w ∈ vs := by
  intro vs
  induction vs with
  | nil => intro sb vno w h; simp [removeFirstVnode] at h
  | cons hd t ih =>
    intro sb vno w h
    simp only [removeFirstVnode] at h
    by_cases hk : hd.v_sb = sb ∧ hd.v_no = vno
    · rw [if_pos hk] at h
      exact List.mem_cons_of_mem hd h
    · rw [if_neg hk] at h
      rcases List.mem_cons.mp h with h2 | h2
      · exact h2 ▸ List.mem_cons_self hd t
      · exact List.mem_cons_of_mem hd (ih sb vno w h2)

/-- Members of the cache after updating the first hit: either an old
member or the image of the hit. -/
theorem mem_updateFirstVnode (f : Vnode → Vnode) :
    ∀ (vs : List Vnode) (sb vno : Nat) (v w : Vnode),
    vfs_vnode_lookup vs sb vno = some v →
    w ∈ updateFirstVnode vs sb vno f → w ∈ vs ∨ w = f v := by
  intro vs
  induction vs with
  | nil => intro sb vno v w h; simp [vfs_vnode_lookup] at h
  | cons hd t ih =>
    intro sb vno v w hl hw
    simp only [vfs_vnode_lookup] at hl
    simp only [updateFirstVnode] at hw
    by_cases hk : hd.v_sb = sb ∧ hd.v_no = vno
    · rw [if_pos hk] at hl hw
      simp only [Option.some.injEq] at hl
      subst hl
      rcases List.mem_cons.mp hw with h2 | h2
      · exact Or.inr h2
      · exact Or.inl (List.mem_cons_of_mem hd h2)
    · rw [if_neg hk] at hl hw
      rcases List.mem_cons.mp hw with h2 | h2
      · exact Or.inl (h2 ▸ List.mem_cons_self hd t)
      · rcases ih sb vno v w hl h2 with h3 | h3
        · exact Or.inl (List.mem_cons_of_mem hd h3)
        · exact Or.inr h3

/-- With unique keys, removing the hit makes the key vanish. -/
theorem vfs_vnode_lookup_removeFirst : ∀ (vs : List Vnode) (sb vno : Nat) (v : Vnode),
    vfs_vnode_lookup vs sb vno = some v →
    (vs.map (fun w => (w.v_sb, w.v_no))).Nodup →
    vfs_vnode_lookup (removeFirstVnode vs sb vno) sb vno = none := by
  intro vs
  induction vs with
  | nil => intro sb vno v h; simp [vfs_vnode_lookup] at h
  | cons hd t ih =>
    intro sb vno v hl hnd
    simp only [List.map_cons, List.nodup_cons] at hnd
    simp only [vfs_vnode_lookup] at hl
    simp only [removeFirstVnode]
    by_cases hk : hd.v_sb = sb ∧ hd.v_no = vno
    · rw [if_pos hk]
      apply vfs_vnode_lookup_eq_none
      rw [← hk.1, ← hk.2]
      exact hnd.1
    · rw [if_neg hk] at hl ⊢
      simp only [vfs_vnode_lookup]
      rw [if_neg hk]
      exact ih sb vno v hl hnd.2

/-- Claim C7 (amended): for a cached vnode v, a release makes exactly
one backend destroy call when the decremented count falls below 1 and
none otherwise, on every path including a failing destroy; and provided
every destroy callback succeeds and all cached counts are at least 1,
after the release the vnode is present in the cache exactly when its
new count is at least 1, all counts stay at least 1, and get_or_load
also preserves the counts-at-least-1 invariant. -/
theorem vfs_vnode_refcount_invariant (B : Backend) (vs : List Vnode)
    (sb vno : Nat) (v : Vnode)
    (hfind : vfs_vnode_lookup vs sb vno = some v)
    (hnd : (vs.map (fun w => (w.v_sb, w.v_no))).Nodup) :
    (vfs_vnode_release B vs sb vno).2.2 = (if v.v_count - 1 < 1 then 1 else 0) ∧
    ((∀ s n, B.destroy_vnode s n = true) → (∀ w ∈ vs, 1 ≤ w.v_count) →
      ((vfs_vnode_lookup (vfs_vnode_release B vs sb vno).1 sb vno).isSome =
         decide (1 ≤ v.v_count - 1) ∧
       (∀ w ∈ (vfs_vnode_release B vs sb vno).1, 1 ≤ w.v_count))) ∧
    ((∀ w ∈ vs, 1 ≤ w.v_count) → ∀ (p a : Bool),
      ∀ w ∈ (vfs_vnode_get_or_read B vs sb vno p a).1, 1 ≤ w.v_count) := by
  have hkeep : ∀ w : Vnode,
      ({ w with v_count := w.v_count - 1 } : Vnode).v_sb = w.v_sb ∧
      ({ w with v_count := w.v_count - 1 } : Vnode).v_no = w.v_no :=
    fun w => ⟨rfl, rfl⟩
  refine ⟨?_, ?_, ?_⟩
  · simp only [vfs_vnode_release, hfind]
    by_cases hc : v.v_count - 1 < 1
    · rw [if_pos hc]
      cases hdest : B.destroy_vnode sb vno <;> simp [hc]
    · rw [if_neg hc]
      simp [hc]
  · intro hdok hwf
    simp only [vfs_vnode_release, hfind]
    by_cases hc : v.v_count - 1 < 1
    · rw [if_pos hc, hdok sb vno, if_pos rfl]
      constructor
      · rw [removeFirst_updateFirst _ hkeep,
            vfs_vnode_lookup_removeFirst vs sb vno v hfind hnd]
        simp
        omega
      · intro w hw
        have hw2 := mem_removeFirstVnode _ sb vno w
          (by rw [removeFirst_updateFirst _ hkeep] at hw; exact hw)
        exact hwf w hw2
    · rw [if_neg hc]
      constructor
      · rw [vfs_vnode_lookup_updateFirst _ hkeep, hfind]
        simp
        omega
      · intro w hw
        rcases mem_updateFirstVnode _ vs sb vno v w hfind hw with h2 | h2
        · exact hwf w h2
        · rw [h2]
          simp only
          omega
  · intro hwf p a w hw
    simp only [vfs_vnode_get_or_read, hfind] at hw
    rcases mem_updateFirstVnode _ vs sb vno v w hfind hw with h2 | h2
    · exact hwf w h2
    · rw [h2]
      simp only
      have hv := hwf v (vfs_vnode_lookup_mem vs sb vno v hfind)
      omega

/-- Witness for C7: releasing the count-2 vnode makes no destroy call
and leaves it present with count 1. -/
theorem vfs_vnode_refcount_invariant_witness :
    vfs_vnode_lookup [vnX] 1 5 = some vnX ∧
    (vfs_vnode_release okBackend [vnX] 1 5).2.2 = 0 ∧
    (vfs_vnode_lookup (vfs_vnode_release okBackend [vnX] 1 5).1 1 5).isSome = true := by
  have h := vfs_vnode_refcount_invariant okBackend [vnX] 1 5 vnX rfl (by simp)
  refine ⟨rfl, ?_, ?_⟩
  · rw [h.1]
    norm_num [vnX]
  · rw [(h.2.1 (fun s n => rfl) (by decide)).1]
    norm_num [vnX]

/-- modifyAt leaves other positions unchanged. -/
theorem modifyAt_getElem?_ne {α : Type} :
    ∀ (l : List α) (i j : Nat) (f : α → α), i ≠ j →
    (modifyAt l i f)[j]? = l[j]? := by
  intro l
  induction l with
  | nil => intro i j f _; cases i <;> rfl
  | cons hd t ih =>
    intro i j f hij
    cases i with
    | zero =>
      cases j with
      | zero => exact absurd rfl hij
      | succ j2 => simp [modifyAt]
    | succ i2 =>
      cases j with
      | zero => simp [modifyAt]
      | succ j2 =>
        simp only [modifyAt, List.getElem?_cons_succ]
        exact ih i2 j2 f (fun h => hij (by rw [h]))

/-- modifyAt maps the value at its position. -/
theorem modifyAt_getElem?_eq {α : Type} :
    ∀ (l : List α) (i : Nat) (f : α → α),
    (modifyAt l i f)[i]? = (l[i]?).map f := by
  intro l
  induction l with
  | nil => intro i f; cases i <;> rfl
  | cons hd t ih =>
    intro i f
    cases i with
    | zero => simp [modifyAt]
    | succ i2 =>
      simp only [modifyAt, List.getElem?_cons_succ]
      exact ih i2 f

/-- Updating the registry entry with a given arena id maps the getSb
result. -/
theorem getSb_updateFirstSb : ∀ (sbs : List Sb) (sbid : Nat) (f : Sb → Sb) (sb : Sb),
    getSb sbs sbid = some sb → (∀ s, (f s).sb_id = s.sb_id) →
    getSb (updateFirstSb sbs sbid f) sbid = some (f sb) := by
  intro sbs
  induction sbs with
  | nil => intro sbid f sb h; simp [getSb] at h
  | cons hd t ih =>
    intro sbid f sb h hf
    simp only [getSb] at h
    simp only [updateFirstSb]
    by_cases hk : hd.sb_id = sbid
    · rw [if_pos hk] at h ⊢
      simp only [Option.some.injEq] at h
      subst h
      simp only [getSb]
      rw [if_pos (by rw [hf hd]; exact hk)]
    · rw [if_neg hk] at h ⊢
      simp only [getSb]
      rw [if_neg hk]
      exact ih sbid f sb h hf

/-- Pass 2 of vfs_dentry_unmount_sb resets every occupied slot owned by
the superblock. -/
theorem dentry_unmount_map_reset (tbl : List Dentry) (sbid : Nat)
    (j : Nat) (d : Dentry) (hj : tbl[j]? = some d)
    (hn : d.d_name.isSome) (hs : d.d_sb = some sbid) :
    (tbl.map (fun d2 => if d2.d_name.isSome && decide (d2.d_sb = some sbid)
       then emptyDentry else d2))[j]? = some emptyDentry := by
  rw [List.getElem?_map, hj]
  simp [hn, hs]

/-- Reduction of vfs_sb_unmount up to the backend unmount callback: a
mounted superblock with no owned vnode and no nested mount point runs
pass 2 and then consults the backend. -/
theorem vfs_sb_unmount_reduce (B : Backend) (st : St) (sbid : Nat) (sb : Sb)
    (hsb : getSb st.sbs sbid = some sb)
    (hm : sb.sb_flags = SbFlag.mounted)
    (hv : st.vnodes.any (fun v => decide (v.v_sb = sbid)) = false)
    (hbusy : st.dentries.any (nestedMountOf sbid) = false) :
    vfs_sb_unmount B st sbid =
      (if B.sb_unmount sbid then
        match sb.sb_mnt with
        | none => ({ st with dentries := st.dentries.map (fun d2 =>
            if d2.d_name.isSome && decide (d2.d_sb = some sbid)
            then emptyDentry else d2) }, Res.crash)
        | some mp =>
          match (st.dentries.map (fun d2 =>
              if d2.d_name.isSome && decide (d2.d_sb = some sbid)
              then emptyDentry else d2))[mp]? with
          | none => ({ st with dentries := st.dentries.map (fun d2 =>
              if d2.d_name.isSome && decide (d2.d_sb = some sbid)
              then emptyDentry else d2) }, Res.crash)
          | some _ =>
            ({ st with
                dentries := modifyAt (st.dentries.map (fun d2 =>
                  if d2.d_name.isSome && decide (d2.d_sb = some sbid)
                  then emptyDentry else d2)) mp
                  (fun d => { d with d_mnt_sb := none }),
                sbs := updateFirstSb st.sbs sbid (fun s =>
                  { s with sb_flags := SbFlag.unused, sb_mnt := none }) },
             Res.ok ())
       else ({ st with dentries := st.dentries.map (fun d2 =>
          if d2.d_name.isSome && decide (d2.d_sb = some sbid)
          then emptyDentry else d2) }, Res.err Errno.E_Io)) := by
  have htbl1 : vfs_dentry_unmount_sb st.dentries sbid =
      (st.dentries.map (fun d2 => if d2.d_name.isSome &&
         decide (d2.d_sb = some sbid) then emptyDentry else d2), true) := by
    unfold vfs_dentry_unmount_sb
    rw [if_neg (by rw [hbusy]; exact Bool.false_ne_true)]
  have hvn : vfs_vnode_unmount_sb st.vnodes sbid = true := by
    unfold vfs_vnode_unmount_sb
    rw [hv]
    rfl
  unfold vfs_sb_unmount
  rw [hsb]
  dsimp only
  rw [if_neg (by rw [hm]; exact fun h => h rfl), hvn, Bool.not_true,
      if_neg Bool.false_ne_true, htbl1]

/-- Claim C4: on a mounted superblock, unmount fails E_CORRUPT when a
cached vnode belongs to it; fails E_BUSY when (no such vnode and) a
nested mount point belongs to it; and when neither exists and the
backend unmount callback succeeds it succeeds, resetting every occupied
dentry owned by the superblock (none is a mount point then), clearing
the mount-point dentry's mount-superblock reference, and resetting the
superblock to flag unused with a cleared mount-point back-reference. -/
theorem vfs_sb_unmount_correct (B : Backend) (st : St) (sbid : Nat) (sb : Sb)
    (hsb : getSb st.sbs sbid = some sb)
    (hm : sb.sb_flags = SbFlag.mounted) :
    (st.vnodes.any (fun v => decide (v.v_sb = sbid)) = true →
      (vfs_sb_unmount B st sbid).2 = Res.err Errno.E_CORRUPT) ∧
    (st.vnodes.any (fun v => decide (v.v_sb = sbid)) = false →
      st.dentries.any (nestedMountOf sbid) = true →
      (vfs_sb_unmount B st sbid).2 = Res.err Errno.E_BUSY) ∧
    (∀ mp : Nat, st.vnodes.any (fun v => decide (v.v_sb = sbid)) = false →
      st.dentries.any (nestedMountOf sbid) = false →
      B.sb_unmount sbid = true →
      sb.sb_mnt = some mp → mp < st.dentries.length →
      ((vfs_sb_unmount B st sbid).2 = Res.ok () ∧
       (∀ (j : Nat) (d : Dentry), st.dentries[j]? = some d → d.d_name.isSome →
         d.d_sb = some sbid →
         (vfs_sb_unmount B st sbid).1.dentries[j]? = some emptyDentry) ∧
       (∀ d' : Dentry, (vfs_sb_unmount B st sbid).1.dentries[mp]? = some d' →
         d'.d_mnt_sb = none) ∧
       getSb (vfs_sb_unmount B st sbid).1.sbs sbid =
         some { sb with sb_flags := SbFlag.unused, sb_mnt := none })) := by
  refine ⟨?_, ?_, ?_⟩
  · intro hv
    unfold vfs_sb_unmount
    rw [hsb]
    dsimp only
    rw [if_neg (by rw [hm]; exact fun h => h rfl)]
    have hvn : vfs_vnode_unmount_sb st.vnodes sbid = false := by
      unfold vfs_vnode_unmount_sb
      rw [hv]
      rfl
    rw [hvn, Bool.not_false, if_pos rfl]
  · intro hv hbusy
    unfold vfs_sb_unmount
    rw [hsb]
    dsimp only
    rw [if_neg (by rw [hm]; exact fun h => h rfl)]
    have hvn : vfs_vnode_unmount_sb st.vnodes sbid = true := by
      unfold vfs_vnode_unmount_sb
      rw [hv]
      rfl
    rw [hvn, Bool.not_true, if_neg Bool.false_ne_true]
    have htbl1 : vfs_dentry_unmount_sb st.dentries sbid = (st.dentries, false) := by
      unfold vfs_dentry_unmount_sb
      rw [if_pos hbusy]
    rw [htbl1]
  · intro mp hv hbusy hu hmp hmplt
    have hred := vfs_sb_unmount_reduce B st sbid sb hsb hm hv hbusy
    rw [hu] at hred
    rw [hmp] at hred
    simp only [if_true] at hred
    have hlt2 : mp < (st.dentries.map (fun d2 => if d2.d_name.isSome &&
        decide (d2.d_sb = some sbid) then emptyDentry else d2)).length := by
      rw [List.length_map]
      exact hmplt
    rcases hmpd : (st.dentries.map (fun d2 => if d2.d_name.isSome &&
        decide (d2.d_sb = some sbid) then emptyDentry else d2))[mp]? with _ | mpd
    · rw [List.getElem?_eq_none_iff] at hmpd
      omega
    · rw [hmpd] at hred
      refine ⟨by rw [hred], ?_, ?_, ?_⟩
      · intro j d hj hn hs
        rw [hred]
        simp only
        have hreset := dentry_unmount_map_reset st.dentries sbid j d hj hn hs
        by_cases hjm : mp = j
        · rw [← hjm] at hreset ⊢
          rw [modifyAt_getElem?_eq, hreset]
          rfl
        · rw [modifyAt_getElem?_ne _ mp j _ hjm]
          exact hreset
      · intro d' hd'
        rw [hred] at hd'
        rw [modifyAt_getElem?_eq, hmpd] at hd'
        have hd2 : ({ mpd with d_mnt_sb := none } : Dentry) = d' := by
          simpa using hd'
        rw [← hd2]
      · rw [hred]
        exact getSb_updateFirstSb st.sbs sbid _ sb hsb (fun s => rfl)

/-- Witness for C4: unmounting the mounted superblock 1 of stMounted
(no cached vnodes, no nested mount points, succeeding backend) succeeds,
resets the owned dentry "a" and marks the superblock unused. -/
theorem vfs_sb_unmount_correct_witness :
    getSb stMounted.sbs 1 = some sbMounted ∧
    sbMounted.sb_flags = SbFlag.mounted ∧
    (vfs_sb_unmount okBackend stMounted 1).2 = Res.ok () ∧
    (vfs_sb_unmount okBackend stMounted 1).1.dentries[1]? = some emptyDentry ∧
    getSb (vfs_sb_unmount okBackend stMounted 1).1.sbs 1 =
      some { sbMounted with sb_flags := SbFlag.unused, sb_mnt := none } := by
  have h := vfs_sb_unmount_correct okBackend stMounted 1 sbMounted rfl rfl
  have hc := h.2.2 0 rfl rfl rfl rfl (by decide)
  exact ⟨rfl, rfl, hc.1, hc.2.1 1 ownedDentry rfl rfl rfl, hc.2.2.2⟩

/-- Claim C5 (amended): the dentries owned by the superblock are
invalidated BEFORE the backend unmount callback: when the callback
fails, unmount returns E_Io with the superblock registry untouched
(flag still mounted) but every occupied dentry owned by the superblock
already reset. -/
theorem vfs_sb_unmount_io_fail_spec (B : Backend) (st : St) (sbid : Nat) (sb : Sb)
    (hsb : getSb st.sbs sbid = some sb)
    (hm : sb.sb_flags = SbFlag.mounted)
    (hv : st.vnodes.any (fun v => decide (v.v_sb = sbid)) = false)
    (hbusy : st.dentries.any (nestedMountOf sbid) = false)
    (hio : B.sb_unmount sbid = false) :
    (vfs_sb_unmount B st sbid).2 = Res.err Errno.E_Io ∧
    (vfs_sb_unmount B st sbid).1.sbs = st.sbs ∧
    (∀ (j : Nat) (d : Dentry), st.dentries[j]? = some d → d.d_name.isSome →
      d.d_sb = some sbid →
      (vfs_sb_unmount B st sbid).1.dentries[j]? = some emptyDentry) := by
  have hred := vfs_sb_unmount_reduce B st sbid sb hsb hm hv hbusy
  rw [hio, if_neg Bool.false_ne_true] at hred
  refine ⟨by rw [hred], by rw [hred], ?_⟩
  intro j d hj hn hs
  rw [hred]
  exact dentry_unmount_map_reset st.dentries sbid j d hj hn hs

/-- Witness for C5: on stMounted with a failing backend unmount
callback, unmount reports E_Io, the registry still shows the mounted
superblock, and the owned dentry "a" is reset. -/
theorem vfs_sb_unmount_io_fail_spec_witness :
    (vfs_sb_unmount badUnmountBackend stMounted 1).2 = Res.err Errno.E_Io ∧
    (vfs_sb_unmount badUnmountBackend stMounted 1).1.sbs = stMounted.sbs ∧
    (vfs_sb_unmount badUnmountBackend stMounted 1).1.dentries[1]? =
      some emptyDentry := by
  have h := vfs_sb_unmount_io_fail_spec badUnmountBackend stMounted 1 sbMounted
    rfl rfl rfl rfl rfl
  exact ⟨h.1, h.2.1, h.2.2 1 ownedDentry rfl rfl rfl⟩

/-- Two successive first-hit updates with key-preserving functions
compose. -/
theorem updateFirst_updateFirst (f g : Vnode → Vnode)
    (hf : ∀ w, (f w).v_sb = w.v_sb ∧ (f w).v_no = w.v_no) :
    ∀ (vs : List Vnode) (sb vno : Nat),
    updateFirstVnode (updateFirstVnode vs sb vno f) sb vno g =
      updateFirstVnode vs sb vno (fun w => g (f w)) := by
  intro vs
  induction vs with
  | nil => intro sb vno; rfl
  | cons hd t ih =>
    intro sb vno
    by_cases hk : hd.v_sb = sb ∧ hd.v_no = vno
    · simp only [updateFirstVnode, if_pos hk]
      rw [if_pos ⟨by rw [(hf hd).1]; exact hk.1, by rw [(hf hd).2]; exact hk.2⟩]
    · simp only [updateFirstVnode, if_neg hk, ih]

/-- A pointwise-identity first-hit update is the identity. -/
theorem updateFirst_congr_id (f : Vnode → Vnode) (hf : ∀ w, f w = w) :
    ∀ (vs : List Vnode) (sb vno : Nat), updateFirstVnode vs sb vno f = vs := by
  intro vs
  induction vs with
  | nil => intro sb vno; rfl
  | cons hd t ih =>
    intro sb vno
    by_cases hk : hd.v_sb = sb ∧ hd.v_no = vno
    · simp only [updateFirstVnode, if_pos hk, hf hd]
    · simp only [updateFirstVnode, if_neg hk, ih]

/-- vfs_vnode_get_or_read returns either a value or an errno, never the
other result shapes. -/
theorem vfs_vnode_get_or_read_shape (B : Backend) (vs : List Vnode)
    (sb vno : Nat) (p a : Bool) :
    (∃ n, (vfs_vnode_get_or_read B vs sb vno p a).2.1 = Res.ok n) ∨
    (∃ e, (vfs_vnode_get_or_read B vs sb vno p a).2.1 = Res.err e) := by
  unfold vfs_vnode_get_or_read
  rcases h : vfs_vnode_lookup vs sb vno with _ | n
  · cases p with
    | false => exact Or.inr ⟨Errno.E_NOMEM, rfl⟩
    | true =>
      rcases hr : B.read_vnode sb vno with e | mode
      · exact Or.inr ⟨e, rfl⟩
      · cases a with
        | false => exact Or.inr ⟨Errno.E_NOMEM, rfl⟩
        | true => exact Or.inl ⟨_, rfl⟩
  · exact Or.inl ⟨_, rfl⟩

/-- A failing vfs_vnode_get_or_read leaves the cache unchanged. -/
theorem vfs_vnode_get_or_read_err_state (B : Backend) (vs : List Vnode)
    (sb vno : Nat) (p a : Bool) (e : Errno)
    (herr : (vfs_vnode_get_or_read B vs sb vno p a).2.1 = Res.err e) :
    (vfs_vnode_get_or_read B vs sb vno p a).1 = vs := by
  unfold vfs_vnode_get_or_read at herr ⊢
  rcases h : vfs_vnode_lookup vs sb vno with _ | n
  · rw [h] at herr
    cases p with
    | false => rfl
    | true =>
      rcases hr : B.read_vnode sb vno with e2 | mode
      · rfl
      · rw [hr] at herr
        cases a with
        | false => rfl
        | true => simp at herr
  · rw [h] at herr
    simp at herr

/-- Releasing the vnode returned by a successful get_or_read restores
the cache exactly, provided destroy callbacks succeed and all cached
counts are at least 1 (the acquire / release pairing of one lookup
step). -/
theorem vfs_vnode_get_or_read_release_roundtrip (B : Backend) (vs : List Vnode)
    (sb vno : Nat) (p a : Bool) (n : Vnode)
    (hdok : ∀ s n2, B.destroy_vnode s n2 = true)
    (hwf : ∀ w ∈ vs, 1 ≤ w.v_count)
    (hok : (vfs_vnode_get_or_read B vs sb vno p a).2.1 = Res.ok n) :
    (vfs_vnode_release B (vfs_vnode_get_or_read B vs sb vno p a).1 sb vno).1 = vs := by
  have hkeepInc : ∀ w : Vnode,
      ({ w with v_count := w.v_count + 1 } : Vnode).v_sb = w.v_sb ∧
      ({ w with v_count := w.v_count + 1 } : Vnode).v_no = w.v_no :=
    fun w => ⟨rfl, rfl⟩
  have hkeepDec : ∀ w : Vnode,
      ({ w with v_count := w.v_count - 1 } : Vnode).v_sb = w.v_sb ∧
      ({ w with v_count := w.v_count - 1 } : Vnode).v_no = w.v_no :=
    fun w => ⟨rfl, rfl⟩
  unfold vfs_vnode_get_or_read at hok ⊢
  rcases h : vfs_vnode_lookup vs sb vno with _ | v
  · rw [h] at hok
    cases p with
    | false => simp at hok
    | true =>
      rcases hr : B.read_vnode sb vno with e | mode
      · rw [hr] at hok
        simp at hok
      · rw [hr] at hok
        cases a with
        | false => simp at hok
        | true =>
          show (vfs_vnode_release B
              ({ v_no := vno, v_mode := mode, v_count := 1, v_sb := sb } :: vs)
              sb vno).1 = vs
          unfold vfs_vnode_release
          have hl2 : vfs_vnode_lookup
              ({ v_no := vno, v_mode := mode, v_count := 1, v_sb := sb } :: vs)
              sb vno =
              some { v_no := vno, v_mode := mode, v_count := 1, v_sb := sb } := by
            unfold vfs_vnode_lookup
            rw [if_pos ⟨rfl, rfl⟩]
          simp only [hl2]
          have hc : ({ v_no := vno, v_mode := mode, v_count := 1, v_sb := sb } : Vnode).v_count - 1 < 1 := by
            show (1 : Int) - 1 < 1
            norm_num
          rw [if_pos hc, hdok sb vno, if_pos rfl]
          rw [removeFirst_updateFirst _ hkeepDec]
          unfold removeFirstVnode
          rw [if_pos ⟨rfl, rfl⟩]
  · show (vfs_vnode_release B (updateFirstVnode vs sb vno
        (fun w => { w with v_count := w.v_count + 1 })) sb vno).1 = vs
    unfold vfs_vnode_release
    rw [vfs_vnode_lookup_updateFirst _ hkeepInc, h, Option.map_some']
    dsimp only
    have hv1 : 1 ≤ v.v_count := hwf v (vfs_vnode_lookup_mem vs sb vno v h)
    have hcond : ¬(({ v with v_count := v.v_count + 1 } : Vnode).v_count - 1 < 1) := by
      show ¬(v.v_count + 1 - 1 < 1)
      omega
    rw [if_neg hcond]
    dsimp only
    rw [updateFirst_updateFirst _ _ hkeepInc]
    exact updateFirst_congr_id _ (fun w => by
      show { w with v_count := w.v_count + 1 - 1 } = w
      have h2 : w.v_count + 1 - 1 = w.v_count := by omega
      rw [h2]) vs sb vno

/-- One path-resolution step leaves the vnode cache exactly as it was,
provided destroy callbacks succeed and cached counts are at least 1:
the directory vnode acquired for the step is released on every exit
path. -/
theorem vfs_lookup_in_dentry_vnodes (B : Backend) (sbs : List Sb)
    (tbl : List Dentry) (vs : List Vnode) (dir : Option Nat) (name : String)
    (A : AllocOk)
    (hdok : ∀ s n, B.destroy_vnode s n = true)
    (hwf : ∀ w ∈ vs, 1 ≤ w.v_count) :
    (vfs_lookup_in_dentry B sbs tbl vs dir name A).1.2 = vs := by
  unfold vfs_lookup_in_dentry
  rcases hg : vfs_dentry_get tbl dir name A.name with ⟨tbl1, r⟩
  cases r with
  | err e => rfl
  | nullRet => rfl
  | crash => rfl
  | ok objIdx =>
    dsimp only
    rcases ho : tbl1[objIdx]? with _ | obj
    · rfl
    · dsimp only
      by_cases hv : obj.d_vno ≠ 0
      · rw [if_pos hv]
      · rw [if_neg hv]
        cases dir with
        | none => rfl
        | some dIdx =>
          dsimp only
          rcases hd : tbl1[dIdx]? with _ | dird
          · rfl
          · dsimp only
            rcases hk : dirLoadKey sbs dird with _ | lslv
            · rfl
            · rcases lslv with ⟨ls, lv⟩
              dsimp only
              rcases hgor : vfs_vnode_get_or_read B vs ls lv A.prealloc A.add
                with ⟨vs1, r2, k⟩
              have h1 : (vfs_vnode_get_or_read B vs ls lv A.prealloc A.add).1 = vs1 := by
                rw [hgor]
              cases r2 with
              | ok dirNode =>
                dsimp only
                have h2 : (vfs_vnode_get_or_read B vs ls lv A.prealloc A.add).2.1 =
                    Res.ok dirNode := by rw [hgor]
                have h3 := vfs_vnode_get_or_read_release_roundtrip B vs ls lv
                  A.prealloc A.add dirNode hdok hwf h2
                rw [h1] at h3
                by_cases hft : FILE_TYPE dirNode.v_mode ≠ FILE_TYPE_DIRECTORY
                · rw [if_pos hft]
                  exact h3
                · rw [if_neg hft]
                  rcases hio : B.iops_lookup ls lv name with e | cv
                  · exact h3
                  · exact h3
              | err e =>
                dsimp only
                have h2 : (vfs_vnode_get_or_read B vs ls lv A.prealloc A.add).2.1 =
                    Res.err e := by rw [hgor]
                have h4 := vfs_vnode_get_or_read_err_state B vs ls lv
                  A.prealloc A.add e h2
                rw [h1] at h4
                exact h4
              | nullRet =>
                rcases vfs_vnode_get_or_read_shape B vs ls lv A.prealloc A.add
                  with ⟨n2, hsh⟩ | ⟨e2, hsh⟩ <;> rw [hgor] at hsh <;> simp at hsh
              | crash =>
                rcases vfs_vnode_get_or_read_shape B vs ls lv A.prealloc A.add
                  with ⟨n2, hsh⟩ | ⟨e2, hsh⟩ <;> rw [hgor] at hsh <;> simp at hsh

/-- The whole traversal loop leaves the vnode cache unchanged under
succeeding destroy callbacks and the counts invariant. -/
theorem vfs_lookup_go_vnodes (B : Backend) (sbs : List Sb) (A : AllocOk)
    (hdok : ∀ s n, B.destroy_vnode s n = true) :
    ∀ (comps : List String) (tbl : List Dentry) (vs : List Vnode)
    (cur : Option Nat), (∀ w ∈ vs, 1 ≤ w.v_count) →
    (vfs_lookup_go B sbs comps tbl vs cur A).1.2 = vs := by
  intro comps
  induction comps with
  | nil => intro tbl vs cur _; rfl
  | cons c rest ih =>
    intro tbl vs cur hwf
    rw [vfs_lookup_go]
    rcases hs : vfs_lookup_in_dentry B sbs tbl vs cur c A with ⟨⟨tbl1, vs1⟩, r⟩
    have hpres : vs1 = vs := by
      have h2 := vfs_lookup_in_dentry_vnodes B sbs tbl vs cur c A hdok hwf
      rw [hs] at h2
      exact h2
    cases r with
    | ok nxt =>
      have hwf1 : ∀ w ∈ vs1, 1 ≤ w.v_count := by
        rw [hpres]
        exact hwf
      exact (ih tbl1 vs1 (some nxt) hwf1).trans hpres
    | err e => exact hpres
    | nullRet => exact hpres
    | crash => exact hpres

/-- vfs_lookup leaves the vnode cache unchanged under the same
conditions. -/
theorem vfs_lookup_vnodes (B : Backend) (sbs : List Sb) (tbl : List Dentry)
    (vs : List Vnode) (root : Option Nat) (path : String) (A : AllocOk)
    (hdok : ∀ s n, B.destroy_vnode s n = true)
    (hwf : ∀ w ∈ vs, 1 ≤ w.v_count) :
    (vfs_lookup B sbs tbl vs root path A).1.2 = vs := by
  by_cases hA : A.path
  · simp only [vfs_lookup, hA, if_true]
    exact vfs_lookup_go_vnodes B sbs A hdok (splitPath path) tbl vs root hwf
  · simp only [vfs_lookup, hA, if_false]
    rfl

/-- vfs_lookup never returns a dentry (lookup-level restatement of the
loop lemma, shared by several developments). -/
theorem vfs_lookup_no_ok (B : Backend) (sbs : List Sb) (tbl : List Dentry)
    (vs : List Vnode) (root : Option Nat) (path : String) (A : AllocOk) :
    Res.isOk (vfs_lookup B sbs tbl vs root path A).2 = false := by
  by_cases hA : A.path
  · simp only [vfs_lookup, hA, if_true]
    exact vfs_lookup_go_no_ok B sbs A (splitPath path) tbl vs root
  · simp only [vfs_lookup, hA, if_false]
    rfl

/-- Removing by device id from a list whose head carries that id drops
the head. -/
theorem eraseFirstDevid_cons_self (sb : Sb) (t : List Sb) (d : Nat)
    (h : sb.sb_devid = d) : eraseFirstDevid (sb :: t) d = t := by
  unfold eraseFirstDevid
  rw [if_pos h]

/-- Every erroring run of the mount tail (type lookup onward) leaves
the superblock registry, type registry and vnode cache unchanged,
provided the type's release callback succeeds. -/
theorem vfs_mount_tail_err_preserves (B : Backend) (st : St) (devid : Nat)
    (ftName : String) (dIdx : Nat) (A : AllocOk) (e : Errno)
    (hkill : ∀ f s, B.ft_kill_sb f s = true)
    (herr : (vfs_mount_tail B st devid ftName dIdx A).2 = Res.err e) :
    (vfs_mount_tail B st devid ftName dIdx A).1.sbs = st.sbs ∧
    (vfs_mount_tail B st devid ftName dIdx A).1.fts = st.fts ∧
    (vfs_mount_tail B st devid ftName dIdx A).1.vnodes = st.vnodes := by
  unfold vfs_mount_tail at herr ⊢
  by_cases hft : st.fts.contains ftName
  · rw [if_pos hft] at herr ⊢
    by_cases hlk : (vfs_sb_lookup st.sbs devid).isSome
    · rw [if_pos hlk] at herr ⊢
      exact ⟨rfl, rfl, rfl⟩
    · rw [if_neg hlk] at herr ⊢
      by_cases hA : A.sb = true
      · rw [if_pos hA] at herr ⊢
        dsimp only at herr ⊢
        rcases hp : B.ft_get_sb ftName devid with e2 | cfg
        · rw [hp] at herr
          dsimp only at herr
          have hde : vfs_sb_dealloc B (newSb devid st.nextSb :: st.sbs) st.nextSb =
              (newSb devid st.nextSb :: st.sbs, Res.crash) := by
            unfold vfs_sb_dealloc getSb
            rw [if_pos (show (newSb devid st.nextSb).sb_id = st.nextSb from rfl)]
            rfl
          rw [hde] at herr
          simp at herr
        · rw [hp] at herr
          dsimp only at herr ⊢
          have hupd : updateFirstSb (newSb devid st.nextSb :: st.sbs) st.nextSb
              (fun sb => { sb with
                sb_root_vno := cfg.root_vno, sb_blocksize := cfg.blocksize,
                sb_blocks := cfg.blocks, sb_max_bytes := cfg.max_bytes,
                sb_fs_type := some ftName }) =
              probedSb devid st.nextSb cfg ftName :: st.sbs := by
            unfold updateFirstSb
            rw [if_pos (show (newSb devid st.nextSb).sb_id = st.nextSb from rfl)]
            rfl
          rw [hupd] at herr ⊢
          by_cases hmc : B.sb_mount st.nextSb = true
          · rw [if_pos hmc] at herr
            simp at herr
          · rw [if_neg hmc] at herr ⊢
            by_cases hkl : B.ft_has_kill ftName = true
            · rw [if_pos hkl] at herr ⊢
              have hde2 : vfs_sb_dealloc B
                  (probedSb devid st.nextSb cfg ftName :: st.sbs) st.nextSb =
                  (st.sbs, Res.ok ()) := by
                unfold vfs_sb_dealloc getSb
                rw [if_pos (show (probedSb devid st.nextSb cfg ftName).sb_id =
                  st.nextSb from rfl)]
                dsimp only
                rw [show (probedSb devid st.nextSb cfg ftName).sb_fs_type =
                  some ftName from rfl]
                dsimp only
                rw [if_pos hkl, hkill ftName st.nextSb, if_pos rfl]
                rw [eraseFirstDevid_cons_self _ st.sbs _ rfl]
              rw [hde2] at herr ⊢
              exact ⟨rfl, rfl, rfl⟩
            · rw [if_neg hkl] at herr
              simp at herr
      · rw [if_neg hA] at herr ⊢
        exact ⟨rfl, rfl, rfl⟩
  · rw [if_neg hft] at herr ⊢
    exact ⟨rfl, rfl, rfl⟩

/-- Claim C2 (amended): every vfs_mount call that returns an error
(rather than crashing) leaves the Superblock Registry, the
FilesystemType Registry and the Vnode Cache (entries and reference
counts) exactly as before, provided the backend release-superblock and
destroy-vnode callbacks succeed and all cached counts are at least 1;
the Dentry Cache is NOT restored (see the counterexample). -/
theorem vfs_mount_error_preserves_registries (B : Backend) (st : St)
    (devid : Nat) (path ftName : String) (A : AllocOk) (e : Errno)
    (hdok : ∀ s n, B.destroy_vnode s n = true)
    (hkill : ∀ f s2, B.ft_kill_sb f s2 = true)
    (hwf : ∀ w ∈ st.vnodes, 1 ≤ w.v_count)
    (herr : (vfs_mount B st devid path ftName A).2 = Res.err e) :
    (vfs_mount B st devid path ftName A).1.sbs = st.sbs ∧
    (vfs_mount B st devid path ftName A).1.fts = st.fts ∧
    (vfs_mount B st devid path ftName A).1.vnodes = st.vnodes := by
  unfold vfs_mount at herr ⊢
  rcases hroot : st.root with _ | r0
  · rw [hroot] at herr
    dsimp only at herr ⊢
    by_cases hp2 : path = "/"
    · rw [if_pos hp2] at herr ⊢
      rcases hdg : vfs_dentry_get st.dentries none "/" A.name with ⟨tbl1, r⟩
      rw [hdg] at herr
      cases r with
      | ok dIdx =>
        dsimp only at herr ⊢
        have h2 := vfs_mount_tail_err_preserves B
          { st with dentries := tbl1, root := none } devid ftName dIdx A e hkill herr
        exact ⟨h2.1, h2.2.1, h2.2.2⟩
      | crash => simp at herr
      | err e2 => exact ⟨rfl, rfl, rfl⟩
      | nullRet => exact ⟨rfl, rfl, rfl⟩
    · rw [if_neg hp2] at herr ⊢
      exact ⟨rfl, rfl, rfl⟩
  · rw [hroot] at herr
    dsimp only at herr ⊢
    by_cases hp2 : path = "/"
    · rw [if_pos hp2] at herr ⊢
      exact ⟨rfl, rfl, rfl⟩
    · rw [if_neg hp2] at herr ⊢
      rcases hlu : vfs_lookup B st.sbs st.dentries st.vnodes (some r0) path A
        with ⟨⟨tbl1, vs1⟩, r⟩
      rw [hlu] at herr
      have hpres : vs1 = st.vnodes := by
        have h2 := vfs_lookup_vnodes B st.sbs st.dentries st.vnodes (some r0)
          path A hdok hwf
        rw [hlu] at h2
        exact h2
      cases r with
      | ok dIdx =>
        have h3 := vfs_lookup_no_ok B st.sbs st.dentries st.vnodes (some r0) path A
        rw [hlu] at h3
        simp [Res.isOk] at h3
      | err e2 => exact ⟨rfl, rfl, hpres⟩
      | nullRet => exact ⟨rfl, rfl, hpres⟩
      | crash => simp at herr

/-- Witness for C2: the failing mount of device 1 at "/x" before any
root exists returns E_NOROOT and leaves every registry and the vnode
cache as before. -/
theorem vfs_mount_error_preserves_registries_witness :
    (vfs_mount okBackend st0 1 "/x" "t" allOk).2 = Res.err Errno.E_NOROOT ∧
    (vfs_mount okBackend st0 1 "/x" "t" allOk).1.sbs = st0.sbs ∧
    (vfs_mount okBackend st0 1 "/x" "t" allOk).1.fts = st0.fts ∧
    (vfs_mount okBackend st0 1 "/x" "t" allOk).1.vnodes = st0.vnodes := by
  have h := vfs_mount_error_preserves_registries okBackend st0 1 "/x" "t" allOk
    Errno.E_NOROOT (fun s n => rfl) (fun f s2 => rfl)
    (by intro w hw; simp [st0] at hw) rfl
  exact ⟨rfl, h.1, h.2.1, h.2.2⟩
